import Mathlib

/-
Verification of the rs-ansible SSH orchestration engine.

This file gives a shallow embedding, in Lean 4, of the parts of the
rs-ansible source that the specification claims talk about:

  * src/ssh/file_transfer.rs  (three-phase idempotent file deployment)
  * src/ssh/hash.rs           (remote hash probe)
  * src/ssh/template.rs       (template deployment pipeline)
  * src/ssh/client.rs         (connect retry loop)
  * src/manager.rs            (batch fan-out and BatchResult bookkeeping)
  * src/executor.rs           (task and playbook execution)

Modelling conventions, used uniformly below:

  * The remote host's file system is an association list from POSIX path to
    file content (a Lean String standing for the byte string).  The shell
    commands the engine issues (test -f, stat, sha256sum, mkdir -p, cp, mv,
    rm -f, chmod, chown, chgrp) are interpreted by their POSIX meaning on
    that state; the remote is assumed well behaved, i.e. those utilities
    succeed and their output parses, which is the remote-environment
    assumption of the specification.  Every remote interaction is also
    recorded in a trace of RAction values, one constructor per distinct
    command shape in the source, so theorems can speak about which commands
    a run did or did not issue.
  * SHA-256 itself is an external primitive (the sha2 crate locally,
    sha256sum remotely); it enters the model as a parameter
    H : String -> String applied to file contents.  Both sides compute the
    same function on the same bytes, which is all the protocol uses.
  * The SCP byte channel may corrupt data: the content that actually lands
    at the staging path is a separate parameter of the transfer model, so
    that the post-transfer verification phase is meaningful.  A faithful
    channel is the special case where it equals the local content.
  * Rust u64 sizes and i32 exit codes become Nat and Int; no arithmetic is
    performed on them besides equality tests, so overflow is not reachable.
  * tokio task fan-out is sequentialised: results are joined in spawn
    order.  All claims proved about it are order-insensitive.
-/

set_option autoImplicit false

namespace RsAnsible

/-! ## Error type, from src/error.rs -/

inductive AnsibleError where
  | SshConnectionError (msg : String)
  | AuthenticationError (msg : String)
  | CommandExecutionError (msg : String)
  | CommandError (msg : String)
  | FileOperationError (msg : String)
  | SystemInfoError (msg : String)
  | TemplateError (msg : String)
  | ValidationError (msg : String)
  | IoError (msg : String)
  | Ssh2Error (msg : String)
  deriving Repr, DecidableEq

/-! ## Basic result types, from src/types.rs -/

structure CommandResult where
  exit_code : Int
  stdout : String
  stderr : String
  deriving Repr, DecidableEq

structure FileTransferResult where
  success : Bool
  bytes_transferred : Nat
  message : String
  deriving Repr, DecidableEq

structure FileCopyOptions where
  owner : Option String
  group : Option String
  mode : Option String
  backup : Bool
  create_dirs : Bool
  precomputed_hash : Option String
  deriving Repr, DecidableEq

/-- Default FileCopyOptions from types.rs: mode "644", create_dirs true. -/
def FileCopyOptions.default : FileCopyOptions :=
  { owner := none, group := none, mode := some "644", backup := false,
    create_dirs := true, precomputed_hash := none }

structure FileHashInfo where
  algorithm : String
  hash : String
  size : Nat
  deriving Repr, DecidableEq

structure HostConfig where
  hostname : String
  port : Nat
  username : String
  password : Option String
  private_key_path : Option String
  passphrase : Option String
  deriving Repr, DecidableEq

/-- Default HostConfig from types.rs: port 22, everything else empty. -/
def HostConfig.default : HostConfig :=
  { hostname := "", port := 22, username := "", password := none,
    private_key_path := none, passphrase := none }

/-! ## Association-list maps

The Rust code keeps maps as std HashMap; the model uses association lists.
amInsert mirrors HashMap insert: it replaces the value when the key is
already present and appends a fresh entry otherwise, so a key occurs at
most once if it occurred at most once before. -/

def alookup {α : Type} : List (String × α) → String → Option α
  | [], _ => none
  | (k, v) :: rest, key => if k = key then some v else alookup rest key

def replaceEntry {α : Type} : List (String × α) → String → α →
    List (String × α)
  | [], _, _ => []
  | (k0, v0) :: t, key, v =>
      if k0 = key then (key, v) :: replaceEntry t key v
      else (k0, v0) :: replaceEntry t key v

def amInsert {α : Type} (l : List (String × α)) (key : String) (v : α) :
    List (String × α) :=
  if (alookup l key).isSome then replaceEntry l key v
  else l ++ [(key, v)]

def amErase {α : Type} (l : List (String × α)) (key : String) :
    List (String × α) :=
  l.filter (fun e => e.1 ≠ key)

/-! ## The remote file system state -/

/-- Remote file system: path to content. File contents are Lean strings
standing for byte strings; sizes are byte counts via String.utf8ByteSize. -/
abbrev RemoteFs := List (String × String)

def fsLookup (fs : RemoteFs) (p : String) : Option String := alookup fs p

def fsWrite (fs : RemoteFs) (p : String) (c : String) : RemoteFs :=
  amInsert fs p c

def fsRemove (fs : RemoteFs) (p : String) : RemoteFs := amErase fs p

/-- Trace of remote interactions issued by one engine operation.  Each
constructor corresponds to one command construction site in the source;
RAction.render spells out the exact shell command string built there. -/
inductive RAction where
  | mkdirP (dir : String)
  | backupCp (src : String) (dst : String)
  | scpSend (path : String) (mode : Nat) (content : String)
  | hashProbe (path : String)
  | testF (path : String)
  | catRead (path : String)
  | rmTemp (path : String)
  | mvCommit (src : String) (dst : String)
  | chmodCmd (mode : String) (path : String)
  | chownCmd (spec : String) (path : String)
  | chgrpCmd (grp : String) (path : String)
  | validateRun (cmd : String)
  deriving Repr, DecidableEq

/-- The exact command string each traced action stands for in the source
(scp sends go over the SCP channel, not the shell; rendered for record). -/
def RAction.render : RAction → String
  | .mkdirP d => "mkdir -p '" ++ d ++ "'"
  | .backupCp s d => "[ -f '" ++ s ++ "' ] && cp '" ++ s ++ "' '" ++ d ++ "' || true"
  | .scpSend p m c => "scp_send " ++ p ++ " mode=" ++ toString m ++ " bytes=" ++ toString c.utf8ByteSize
  | .hashProbe p => "sha256sum '" ++ p ++ "' 2>/dev/null || shasum -a 256 '" ++ p ++ "'"
  | .testF p => "test -f '" ++ p ++ "' && echo 'exists' || echo 'not_exists'"
  | .catRead p => "cat '" ++ p ++ "'"
  | .rmTemp p => "rm -f '" ++ p ++ "'"
  | .mvCommit s d => "mv '" ++ s ++ "' '" ++ d ++ "'"
  | .chmodCmd m p => "chmod " ++ m ++ " '" ++ p ++ "'"
  | .chownCmd s p => "chown " ++ s ++ " '" ++ p ++ "'"
  | .chgrpCmd g p => "chgrp " ++ g ++ " '" ++ p ++ "'"
  | .validateRun c => c

/-! ## Octal mode parsing, from u32::from_str_radix(mode, 8) -/

def isOctDigit (c : Char) : Bool := '0' ≤ c && c ≤ '7'

def octVal (c : Char) : Nat := c.toNat - '0'.toNat

/-- Models u32::from_str_radix(s, 8): an optional leading plus sign, then a
nonempty run of octal digits, value below 2^32; anything else is an error
(for the unsigned target type a minus sign is an invalid digit). -/
def parse_octal_u32 (s : String) : Option Nat :=
  let digits : List Char :=
    match s.data with
    | '+' :: rest => rest
    | cs => cs
  if digits.isEmpty then none
  else if digits.all isOctDigit then
    let v := digits.foldl (fun acc c => acc * 8 + octVal c) 0
    if v < 2 ^ 32 then some v else none
  else none

/-- Initial permission bits given to scp_send in file_transfer.rs:
options.mode parsed as octal, parse failures silently defaulting to 0o644
through unwrap_or. -/
def initial_mode (opts : FileCopyOptions) : Nat :=
  match opts.mode with
  | some m => (parse_octal_u32 m).getD 0o644
  | none => 0o644

/-! ## Hash probe, from src/ssh/hash.rs

get_remote_file_hash composes test -f, stat and sha256sum shell commands
and parses their output.  On the well-behaved remote of this model that
protocol yields exactly the file's SHA-256 hex and byte size when the file
exists, and absence otherwise. -/

def get_remote_file_hash (H : String → String) (fs : RemoteFs) (p : String) :
    Option FileHashInfo :=
  (fsLookup fs p).map (fun c => ⟨"sha256", H c, c.utf8ByteSize⟩)

/-- Phase 1 of file deployment: the local hash info.  When a precomputed
hash is supplied it is trusted verbatim and only the size is read from
metadata; otherwise the local file is hashed. -/
def local_hash_info (H : String → String) (localContent : String)
    (opts : FileCopyOptions) : FileHashInfo :=
  match opts.precomputed_hash with
  | some h => ⟨"sha256", h, localContent.utf8ByteSize⟩
  | none => ⟨"sha256", H localContent, localContent.utf8ByteSize⟩

/-! ## File deployment, from src/ssh/file_transfer.rs -/

instance {ε α : Type} [DecidableEq ε] [DecidableEq α] :
    DecidableEq (Except ε α) := fun x y =>
  match x, y with
  | .ok a, .ok b =>
      if h : a = b then isTrue (by rw [h])
      else isFalse (by intro hh; cases hh; exact h rfl)
  | .error a, .error b =>
      if h : a = b then isTrue (by rw [h])
      else isFalse (by intro hh; cases hh; exact h rfl)
  | .ok _, .error _ => isFalse (by intro hh; cases hh)
  | .error _, .ok _ => isFalse (by intro hh; cases hh)

/-- Result of one copy_file_to_remote_with_options call: the returned
value, the remote file system afterwards, and the trace of remote
interactions. -/
structure CopyOutcome where
  result : Except AnsibleError FileTransferResult
  fs : RemoteFs
  trace : List RAction
  deriving Repr, DecidableEq

/-- Attribute application from apply_file_attributes: chmod when mode is
set; then chown owner:group or chown owner when owner is set, else chgrp
group when only group is set.  On the well-behaved remote these commands
exit 0 and do not change file contents, so only the trace records them. -/
def apply_file_attributes (opts : FileCopyOptions) (p : String) :
    List RAction :=
  (match opts.mode with
   | some m => [.chmodCmd m p]
   | none => []) ++
  (match opts.owner with
   | some o =>
       [.chownCmd (match opts.group with
                   | some g => o ++ ":" ++ g
                   | none => o) p]
   | none =>
       match opts.group with
       | some g => [.chgrpCmd g p]
       | none => [])

/-- Parent directory in the sense of Path::parent rendered to a string:
everything before the last slash.  Paths with no slash give the empty
string; both the empty string and a bare "/" suppress the mkdir. -/
def parent_dir (p : String) : String :=
  String.intercalate "/" ((p.splitOn "/").dropLast)

/-- Success message built at the end of copy_file_to_remote_with_options. -/
def copy_success_message (bytes : Nat) (hash : String)
    (opts : FileCopyOptions) : String :=
  let m := "Successfully transferred " ++ toString bytes ++ " bytes (hash: "
    ++ hash ++ ")"
  let m := match opts.owner with
    | some o => m ++ ", owner: " ++ o
    | none => m
  let m := match opts.group with
    | some g => m ++ ", group: " ++ g
    | none => m
  match opts.mode with
  | some md => m ++ ", mode: " ++ md
  | none => m

/-- Error message of the post-transfer SHA-256 mismatch branch.  The source
string also embeds the local and staging paths; the model keeps the two
digests, which are what the comparison is about. -/
def hash_mismatch_message (localHash remoteHash : String) : String :=
  "File transfer verification FAILED! SHA256 hash mismatch detected. Local hash: "
    ++ localHash ++ " Remote hash: " ++ remoteHash
    ++ " File may be corrupted during transfer"

/-- Error message of the post-transfer size mismatch branch. -/
def size_mismatch_message (localSize remoteSize : Nat) : String :=
  "File transfer verification FAILED! Size mismatch detected. Local size: "
    ++ toString localSize ++ " bytes Remote size: " ++ toString remoteSize
    ++ " bytes File may be corrupted during transfer"

/-- The staging path from generate_remote_temp_path in utils.rs; the unique
suffix (seconds.nanos.random) is a parameter of each call. -/
def remote_temp_path (base sfx : String) : String := base ++ ".tmp." ++ sfx

/-- Phase 3 of copy_file_to_remote_with_options: the staged transfer.
mkdir -p of the parent when create_dirs is set; backup copy of an existing
destination when backup is set (non-fatal); scp_send of the bytes to the
staging path with initial_mode; post-transfer hash verification of the
staging file (hash first, then size; either mismatch removes the staging
file and fails); atomic mv to the destination; attribute application.
transferred is the content that actually lands at the staging path, which
equals localContent exactly when the channel is faithful. -/
def copy_transfer_phase (H : String → String) (fs : RemoteFs)
    (localContent remotePath : String) (opts : FileCopyOptions)
    (sfx backupTs : String) (transferred : String) : CopyOutcome :=
  let lh := local_hash_info H localContent opts
  let tMkdir : List RAction :=
    if opts.create_dirs then
      let pd := parent_dir remotePath
      if pd ≠ "" ∧ pd ≠ "/" then [.mkdirP pd] else []
    else []
  let backupPath := remotePath ++ ".bak." ++ backupTs
  let fs1 : RemoteFs :=
    if opts.backup then
      match fsLookup fs remotePath with
      | some c => fsWrite fs backupPath c
      | none => fs
    else fs
  let tBak : List RAction :=
    if opts.backup then [.backupCp remotePath backupPath] else []
  let tempPath := remote_temp_path remotePath sfx
  let fs2 := fsWrite fs1 tempPath transferred
  let tScp : List RAction := [.scpSend tempPath (initial_mode opts) transferred]
  let bytes := localContent.utf8ByteSize
  if H transferred ≠ lh.hash then
    { result := .error (.FileOperationError
        (hash_mismatch_message lh.hash (H transferred))),
      fs := fsRemove fs2 tempPath,
      trace := tMkdir ++ tBak ++ tScp ++ [.hashProbe tempPath, .rmTemp tempPath] }
  else if transferred.utf8ByteSize ≠ lh.size then
    { result := .error (.FileOperationError
        (size_mismatch_message lh.size transferred.utf8ByteSize)),
      fs := fsRemove fs2 tempPath,
      trace := tMkdir ++ tBak ++ tScp ++ [.hashProbe tempPath, .rmTemp tempPath] }
  else
    { result := .ok ⟨true, bytes, copy_success_message bytes lh.hash opts⟩,
      fs := fsWrite (fsRemove fs2 tempPath) remotePath transferred,
      trace := tMkdir ++ tBak ++ tScp
        ++ [.hashProbe tempPath, .mvCommit tempPath remotePath]
        ++ apply_file_attributes opts remotePath }

/-- copy_file_to_remote_with_options from src/ssh/file_transfer.rs.
Phase 1 computes the local hash (or trusts the precomputed one); phase 2
probes the destination and, when both hex digest and size match, skips the
transfer entirely, still applying attributes and reporting
bytes_transferred = 0; otherwise phase 3 performs the staged, verified,
atomically committed transfer. -/
def copy_file_to_remote_with_options (H : String → String) (fs : RemoteFs)
    (localContent remotePath : String) (opts : FileCopyOptions)
    (sfx backupTs : String) (transferred : String) : CopyOutcome :=
  let lh := local_hash_info H localContent opts
  match get_remote_file_hash H fs remotePath with
  | some rh =>
      if rh.hash = lh.hash ∧ rh.size = lh.size then
        { result := .ok ⟨true, 0,
            "File unchanged (hash: " ++ rh.hash ++ "), attributes updated"⟩,
          fs := fs,
          trace := [.hashProbe remotePath] ++ apply_file_attributes opts remotePath }
      else
        copy_transfer_phase H fs localContent remotePath opts sfx backupTs transferred
  | none =>
      copy_transfer_phase H fs localContent remotePath opts sfx backupTs transferred

/-- The phase-2 idempotency probe decides a transfer is needed: the
destination is absent, or its digest or size differs from the local one. -/
def need_transfer (H : String → String) (fs : RemoteFs)
    (localContent remotePath : String) (opts : FileCopyOptions) : Bool :=
  match get_remote_file_hash H fs remotePath with
  | some rh =>
      !(rh.hash == (local_hash_info H localContent opts).hash
        && rh.size == (local_hash_info H localContent opts).size)
  | none => true

def is_scp : RAction → Bool
  | .scpSend _ _ _ => true
  | _ => false

def count_scp (tr : List RAction) : Nat := (tr.filter is_scp).length

/-! ## Template deployment, from src/ssh/template.rs -/

/-- Template options from types.rs.  The variable values are arbitrary
JSON values handed to the engine; their type is a parameter V since the
model treats the rendering engine as an external collaborator. -/
structure TemplateOptions (V : Type) where
  src : String
  dest : String
  /-- The source field is named variables; that word is reserved in Lean. -/
  vars : List (String × V)
  owner : Option String
  group : Option String
  mode : Option String
  backup : Bool
  validate : Option String
  deriving Repr, DecidableEq

structure TemplateResult where
  success : Bool
  changed : Bool
  message : String
  diff : Option String
  deriving Repr, DecidableEq

/-- str::lines of Rust: split on newline, drop a trailing empty segment,
strip one trailing carriage return from each line. -/
def rust_lines (s : String) : List String :=
  let parts := s.splitOn "\n"
  let parts := if parts.getLast? = some "" then parts.dropLast else parts
  parts.map (fun l => if l.endsWith "\r" then l.dropRight 1 else l)

/-- generate_diff from template.rs: a header then, for each line index where
old and new differ, a minus line for a nonempty old line and a plus line
for a nonempty new line. -/
def generate_diff (oldC newC : String) : String :=
  let ol := rust_lines oldC
  let nl := rust_lines newC
  let body := (List.range (max ol.length nl.length)).foldl
    (fun d i =>
      let o := (ol.get? i).getD ""
      let n := (nl.get? i).getD ""
      if o ≠ n then
        let d := if o ≠ "" then d ++ "- " ++ o ++ "\n" else d
        if n ≠ "" then d ++ "+ " ++ n ++ "\n" else d
      else d)
    ""
  "--- old\n+++ new\n" ++ body

/-- Remote staging path used by deploy_template; ts is the seconds
timestamp chrono produces at the call. -/
def template_temp_path (ts : String) : String :=
  "/tmp/rs_ansible_template_" ++ ts ++ ".tmp"

/-- set_file_attributes from template.rs (distinct from the file-transfer
variant): chmod when mode is set, then a single chown whose target is
owner:group, owner alone, or :group; the degenerate empty target is
skipped.  Commands succeed on the well-behaved remote and do not touch
file contents, so only the trace records them. -/
def set_file_attributes {V : Type} (opts : TemplateOptions V) (p : String) :
    List RAction :=
  (match opts.mode with
   | some m => [.chmodCmd m p]
   | none => []) ++
  (if opts.owner.isSome ∨ opts.group.isSome then
     let o := opts.owner.getD ""
     let g := opts.group.getD ""
     let tgt := if o ≠ "" ∧ g ≠ "" then o ++ ":" ++ g
       else if o ≠ "" then o
       else ":" ++ g
     if tgt ≠ "" ∧ tgt ≠ ":" then [.chownCmd tgt p] else []
   else [])

/-- Result of one deploy_template call: the returned value, the remote file
system afterwards, and the trace of remote interactions. -/
structure DeployOutcome where
  result : Except AnsibleError TemplateResult
  fs : RemoteFs
  trace : List RAction
  deriving Repr, DecidableEq

/-- The changed branch of deploy_template: write the rendered content to a
local temp file and upload it verbatim to the remote staging path (plain
scp_send with mode 0o644, no hash verification); when a validate command is
supplied, substitute the staging path for the percent-s placeholder and run
it, a nonzero exit removing the staging file and failing with
ValidationError; otherwise mkdir -p the parent when nonempty, mv the
staging file onto the destination, and apply attributes.  runValidate gives
the outcome of the user-supplied validate command, which is assumed not to
modify the remote file system (validators are read-only). -/
def deploy_template_changed {V : Type} (fs : RemoteFs)
    (opts : TemplateOptions V) (rendered : String) (ts : String)
    (runValidate : String → CommandResult) (diff : Option String)
    (preTrace : List RAction) : DeployOutcome :=
  let tempPath := template_temp_path ts
  let fs1 := fsWrite fs tempPath rendered
  let trUp := preTrace ++ [.scpSend tempPath 0o644 rendered]
  match opts.validate with
  | some v =>
      let cmd := v.replace "%s" tempPath
      let res := runValidate cmd
      if res.exit_code ≠ 0 then
        { result := .error (.ValidationError
            ("Template validation failed: " ++ res.stderr)),
          fs := fsRemove fs1 tempPath,
          trace := trUp ++ [.validateRun cmd, .rmTemp tempPath] }
      else
        let pd := parent_dir opts.dest
        let trMk := if pd ≠ "" then [RAction.mkdirP pd] else []
        { result := .ok ⟨true, true, "Template deployed to " ++ opts.dest, diff⟩,
          fs := fsWrite (fsRemove fs1 tempPath) opts.dest rendered,
          trace := trUp ++ [.validateRun cmd] ++ trMk
            ++ [.mvCommit tempPath opts.dest]
            ++ set_file_attributes opts opts.dest }
  | none =>
      let pd := parent_dir opts.dest
      let trMk := if pd ≠ "" then [RAction.mkdirP pd] else []
      { result := .ok ⟨true, true, "Template deployed to " ++ opts.dest, diff⟩,
        fs := fsWrite (fsRemove fs1 tempPath) opts.dest rendered,
        trace := trUp ++ trMk ++ [.mvCommit tempPath opts.dest]
          ++ set_file_attributes opts opts.dest }

/-- deploy_template from src/ssh/template.rs.  tera is the external Tera
engine (add_raw_template plus render collapsed into one call); its failure
becomes TemplateError.  The template text has already been read from
opts.src.  When the destination exists and its content equals the rendered
text, nothing is deployed and changed = false; when it exists and differs,
a diff is computed and, if requested, the existing file is backed up to
dest.TS.backup before the changed branch runs; when it is absent the
changed branch runs directly. -/
def deploy_template {V : Type}
    (tera : String → List (String × V) → Except String String)
    (fs : RemoteFs) (templateContent : String) (opts : TemplateOptions V)
    (ts backupTs : String) (runValidate : String → CommandResult) :
    DeployOutcome :=
  match tera templateContent opts.vars with
  | .error e => ⟨.error (.TemplateError ("Failed to render template: " ++ e)), fs, []⟩
  | .ok rendered =>
    match fsLookup fs opts.dest with
    | some remoteContent =>
        if remoteContent ≠ rendered then
          let diff := some (generate_diff remoteContent rendered)
          let backupPath := opts.dest ++ "." ++ backupTs ++ ".backup"
          let fs1 := if opts.backup then fsWrite fs backupPath remoteContent else fs
          let tb : List RAction :=
            if opts.backup then [.backupCp opts.dest backupPath] else []
          deploy_template_changed fs1 opts rendered ts runValidate diff
            ([.testF opts.dest, .catRead opts.dest] ++ tb)
        else
          { result := .ok ⟨true, false,
              "Template at " ++ opts.dest ++ " is already up to date", none⟩,
            fs := fs,
            trace := [.testF opts.dest, .catRead opts.dest] }
    | none =>
        deploy_template_changed fs opts rendered ts runValidate none
          [.testF opts.dest]

/-- Models the Tera engine applied to a template that contains no template
directives at all: such a template renders to itself, whatever the
variables. -/
def tera_plain : String → List (String × String) → Except String String :=
  fun t _ => .ok t

/-! ## Session construction retry, from src/ssh/client.rs -/

/-- What the environment does during one connection attempt: an error
message for the TCP connect if it fails, one for the SSH handshake if it
fails, one for the userauth call if it fails (an ssh2 error, which the
question-mark operator converts to Ssh2Error), and whether the session
reports authenticated afterwards. -/
structure ConnectEnv where
  tcp : Option String
  handshake : Option String
  auth : Option String
  authenticated : Bool
  deriving Repr, DecidableEq

/-- connect_once from client.rs: TCP connect, handshake, then public-key
auth when a key path is configured, else password auth when a password is
configured, else fail with AuthenticationError; finally check
session.authenticated(). -/
def connect_once (cfg : HostConfig) (env : ConnectEnv) :
    Except AnsibleError Unit :=
  match env.tcp with
  | some e => .error (.SshConnectionError
      ("Failed to connect to " ++ cfg.hostname ++ ":" ++ toString cfg.port
        ++ ": " ++ e))
  | none =>
    match env.handshake with
    | some e => .error (.SshConnectionError ("SSH Handshake failed: " ++ e))
    | none =>
      if cfg.private_key_path.isSome ∨ cfg.password.isSome then
        match env.auth with
        | some e => .error (.Ssh2Error e)
        | none =>
          if env.authenticated then .ok ()
          else .error (.AuthenticationError "Authentication failed")
      else
        .error (.AuthenticationError "No authentication method provided")

/-- The retry loop of SshClient::new: attempts 1, 2, 3 (remaining counts
the attempts left of the 1..=max_retries range); before attempt n with n
greater than 1 it sleeps retry_delay times n minus 1 where retry_delay is
1000 ms; any error, of any kind, is stored as last_error and retried.
Returns the final result, the number of attempts made and the list of
sleeps (in ms) performed. -/
def connect_attempts (cfg : HostConfig) (env : Nat → ConnectEnv) :
    Nat → Nat → List Nat → Option AnsibleError →
    Except AnsibleError Unit × Nat × List Nat
  | 0, attempt, sleeps, last =>
      (.error (last.getD
        (.SshConnectionError "Failed to connect after retries")),
       attempt - 1, sleeps)
  | remaining + 1, attempt, sleeps, _last =>
      let sleeps := if 1 < attempt then sleeps ++ [1000 * (attempt - 1)]
        else sleeps
      match connect_once cfg (env attempt) with
      | .ok _ => (.ok (), attempt, sleeps)
      | .error e => connect_attempts cfg env remaining (attempt + 1) sleeps
          (some e)

/-- SshClient::new from client.rs: the retry loop over 3 attempts started
at attempt 1. -/
def ssh_client_new (cfg : HostConfig) (env : Nat → ConnectEnv) :
    Except AnsibleError Unit × Nat × List Nat :=
  connect_attempts cfg env 3 1 [] none

/-! ## Batch execution, from src/manager.rs -/

/-- The per-host payload of a batch is abstracted to Unit: the batch and
playbook claims only depend on which hosts succeeded or failed, never on
the payload value. -/
abbrev HostResult := Except AnsibleError Unit

/-- BatchResult from manager.rs: a result map keyed by host id plus the
successful and failed id lists. -/
structure BatchResult where
  results : List (String × HostResult)
  successful : List String
  failed : List String
  deriving Repr, DecidableEq

def BatchResult.new : BatchResult := ⟨[], [], []⟩

/-- add_result: push the host onto successful or failed according to the
result, then insert into the map (replacing any entry under the same key,
as HashMap insert does). -/
def BatchResult.add_result (br : BatchResult) (host : String)
    (r : HostResult) : BatchResult :=
  { results := amInsert br.results host r,
    successful := match r with
      | .ok _ => br.successful ++ [host]
      | .error _ => br.successful,
    failed := match r with
      | .ok _ => br.failed
      | .error _ => br.failed ++ [host] }

/-- Whether a per-host result counts as a success; mirrors the match in
add_result and is used to state batch bookkeeping facts. -/
def hostResultOk : HostResult → Bool
  | .ok _ => true
  | .error _ => false

/-- success_rate: 0 when the map is empty, else successful over results.
The source computes this in f32; the model uses exact rationals, which
agree with f32 on the only comparison the engine makes, positivity. -/
def BatchResult.success_rate (br : BatchResult) : Rat :=
  if br.results.isEmpty then 0
  else (br.successful.length : Rat) / (br.results.length : Rat)

/-- The comparison success_rate() > 0.0 that the executor performs, as an
executable boolean; success_rate_pos_iff below proves it equal to the
positivity of the exact rational success_rate. -/
def BatchResult.success_rate_pos (br : BatchResult) : Bool :=
  !br.results.isEmpty && decide (0 < br.successful.length)

/-- AnsibleManager: the inventory map (host id to credentials) and the
concurrency bound. -/
structure AnsibleManager where
  hosts : List (String × HostConfig)
  max_concurrent_connections : Nat
  deriving Repr, DecidableEq

/-- AnsibleManager::new sets the concurrency bound to 15. -/
def AnsibleManager.new : AnsibleManager := ⟨[], 15⟩

def AnsibleManager.list_hosts (m : AnsibleManager) : List String :=
  m.hosts.map (·.1)

/-- The error recorded for a target id absent from the inventory. -/
def not_found_error (h : String) : AnsibleError :=
  .SshConnectionError ("Host " ++ h ++ " not found")

/-- execute_concurrent_operation from manager.rs, sequentialised.  The
spawn loop records unknown hosts immediately as
SshConnectionError "Host X not found" and spawns a worker for each known
host; the join loop then adds each worker's outcome.  op h is the combined
outcome of creating the session for h and running the per-host operation
on it.  The model collects worker results in spawn order; the real
completion order is scheduler-dependent, and every property proved below
is insensitive to it. -/
def execute_concurrent_operation (m : AnsibleManager)
    (host_names : List String) (op : String → HostResult) : BatchResult :=
  let spawn := host_names.foldl
    (fun (acc : BatchResult × List String) h =>
      match alookup m.hosts h with
      | some _ => (acc.1, acc.2 ++ [h])
      | none => (acc.1.add_result h (.error (not_found_error h)), acc.2))
    (BatchResult.new, [])
  spawn.2.foldl (fun br h => br.add_result h (op h)) spawn.1

/-- The target ids the spawn loop finds missing from the inventory, in
target order. -/
def unknown_hosts (m : AnsibleManager) (ns : List String) : List String :=
  ns.filter (fun h => (alookup m.hosts h).isNone)

/-- The target ids present in the inventory, in target order. -/
def known_hosts (m : AnsibleManager) (ns : List String) : List String :=
  ns.filter (fun h => (alookup m.hosts h).isSome)

/-! ## Task and playbook execution, from src/executor.rs -/

/-- TaskType; payload fields that never influence control flow (the
user and template option records, which only feed the per-host operation
abstracted by the oracle) are elided. -/
inductive TaskType where
  | Command (cmd : String)
  | CopyFile (src : String) (dest : String) (options : Option FileCopyOptions)
  | GetSystemInfo
  | Ping
  | Shell (script : String)
  | User
  | Template
  deriving Repr, DecidableEq

structure Task where
  name : String
  task_type : TaskType
  hosts : Option (List String)
  ignore_errors : Bool
  deriving Repr, DecidableEq

structure Playbook where
  name : String
  tasks : List Task
  deriving Repr, DecidableEq

structure PlaybookResult where
  playbook_name : String
  task_results : List (String × BatchResult)
  overall_success : Bool
  failed_hosts : List String
  skipped_hosts : List String
  deriving Repr, DecidableEq

/-- The synthetic error recorded for a host excluded from a task because it
failed earlier. -/
def skip_error : AnsibleError :=
  .SshConnectionError "Host skipped due to previous failure"

/-- An oracle giving the per-host outcomes the environment produces:
oracle t p h is the outcome for host h in phase p of the task at position
t.  Phase 0 is the task's single batch; the shell task uses phase 1 for
the script upload batch and phase 2 for the execution batch (its cleanup
batch result is discarded by the source). -/
abbrev TaskOracle := Nat → Nat → String → HostResult

/-- execute_task from executor.rs.  Targets are the task's host list or
the whole inventory; hosts in failed_hosts are filtered out.  When no
active host remains, a synthetic batch of skip_error entries for the
skipped hosts is returned.  The shell task first uploads the script
(CR characters stripped) to every active host and, when at least one
upload succeeded, returns the execution batch, else fails wholesale with
FileOperationError; every other task type returns its batch directly. -/
def execute_task (m : AnsibleManager) (oracle : TaskOracle) (tIdx : Nat)
    (task : Task) (failed_hosts : List String) :
    Except AnsibleError BatchResult :=
  let all_hosts := match task.hosts with
    | some hs => hs
    | none => m.list_hosts
  let active := all_hosts.filter (fun h => !(failed_hosts.contains h))
  let skipped := all_hosts.filter (fun h => failed_hosts.contains h)
  if active.isEmpty then
    .ok (skipped.foldl
      (fun br h => br.add_result h (.error skip_error)) BatchResult.new)
  else
    match task.task_type with
    | .Shell _ =>
        let copyResult := execute_concurrent_operation m active (oracle tIdx 1)
        if copyResult.success_rate_pos then
          .ok (execute_concurrent_operation m active (oracle tIdx 2))
        else
          .error (.FileOperationError "Failed to copy script to remote hosts")
    | _ => .ok (execute_concurrent_operation m active (oracle tIdx 0))

/-- The running state of execute_playbook between tasks: the recorded
(task name, result) pairs, the overall_success flag, the failed_hosts set
(a duplicate-free list) and the position of the next task; halted is the
break taken when a non-ignored task ends with success rate zero (the flag
is false there by construction); failed is the early return of a
task-level error on a non-ignored task. -/
inductive RunSt where
  | running (acc : List (String × BatchResult)) (ok : Bool)
      (fh : List String) (idx : Nat)
  | halted (acc : List (String × BatchResult)) (fh : List String)
  | failed (e : AnsibleError)
  deriving Repr, DecidableEq

/-- Insertion of a task's failed hosts into the failed_hosts set, skipping
ids already present (HashSet semantics, insertion order preserved). -/
def insert_failed (fh : List String) (hs : List String) : List String :=
  hs.foldl (fun s h => if s.contains h then s else s ++ [h]) fh

/-- One iteration of the execute_playbook loop.  On a task result: record
it; when ignore_errors is false add its failed hosts to failed_hosts; when
additionally its success rate is zero, set overall_success false and stop
(the two source conditions coincide, so the running state's flag never
changes there).  On a task-level error: propagate it when ignore_errors is
false, else clear overall_success and continue without recording. -/
def pb_step (m : AnsibleManager) (oracle : TaskOracle) (st : RunSt)
    (t : Task) : RunSt :=
  match st with
  | .running acc ok fh idx =>
    match execute_task m oracle idx t fh with
    | .ok br =>
        let success := br.success_rate_pos
        let fh' := if t.ignore_errors then fh else insert_failed fh br.failed
        let acc' := acc ++ [(t.name, br)]
        if !success && !t.ignore_errors then .halted acc' fh'
        else .running acc' ok fh' (idx + 1)
    | .error e =>
        if t.ignore_errors then .running acc false fh (idx + 1)
        else .failed e
  | .halted acc fh => .halted acc fh
  | .failed e => .failed e

/-- execute_playbook from executor.rs: fold the loop over the tasks from
the empty initial state and package the final state; the skipped_hosts set
is a copy of failed_hosts. -/
def execute_playbook (m : AnsibleManager) (oracle : TaskOracle)
    (pb : Playbook) : Except AnsibleError PlaybookResult :=
  match pb.tasks.foldl (pb_step m oracle) (.running [] true [] 0) with
  | .running acc ok fh _ => .ok ⟨pb.name, acc, ok, fh, fh⟩
  | .halted acc fh => .ok ⟨pb.name, acc, false, fh, fh⟩
  | .failed e => .error e

/-- The state of the run after the first j tasks. -/
def prefix_run (m : AnsibleManager) (oracle : TaskOracle) (pb : Playbook)
    (j : Nat) : RunSt :=
  (pb.tasks.take j).foldl (pb_step m oracle) (.running [] true [] 0)

/-- A non-falsifying step: the task produced a result and either its
errors are ignored or at least one host succeeded. -/
def step_ok (m : AnsibleManager) (oracle : TaskOracle) (t : Task)
    (fh : List String) (idx : Nat) : Prop :=
  ∃ br, execute_task m oracle idx t fh = .ok br ∧
    (t.ignore_errors = true ∨ 0 < br.success_rate)

/-- The recorded task results visible in a run state (none in the failed
state, whose accumulator the source discards by returning Err). -/
def RunSt.outAcc : RunSt → List (String × BatchResult)
  | .running acc _ _ _ => acc
  | .halted acc _ => acc
  | .failed _ => []

/-- The overall_success flag a run state gives rise to, when it gives rise
to a PlaybookResult at all. -/
def RunSt.outFlag : RunSt → Option Bool
  | .running _ ok _ _ => some ok
  | .halted _ _ => some false
  | .failed _ => none

/-! ## Concrete instances used to witness the theorems below -/

/-- A stand-in for the concrete SHA-256 hex function in witnesses; any
function of the content works since the protocol only compares digests of
equal inputs for equality. -/
def cH : String → String := fun s => "sha-" ++ s

def cOpts10 : FileCopyOptions :=
  { FileCopyOptions.default with mode := some "79" }

def cM5 : AnsibleManager := ⟨[("a", HostConfig.default)], 15⟩

def cOp5 : String → HostResult := fun _ => .ok ()

def cM34 : AnsibleManager :=
  ⟨[("a", HostConfig.default), ("b", HostConfig.default)], 15⟩

def cOracle34 : TaskOracle := fun t _ h =>
  if t = 0 ∧ h = "b" then .error (.CommandError "boom") else .ok ()

def cPb3 : Playbook :=
  ⟨"pb3", [⟨"t0", .Ping, none, false⟩, ⟨"t1", .Ping, some ["b"], false⟩]⟩

/-- Result of the first task of cPb3: host a succeeds, host b fails. -/
def cBr0 : BatchResult :=
  ⟨[("a", .ok ()), ("b", .error (.CommandError "boom"))], ["a"], ["b"]⟩

/-- Result of the second task of cPb3: the only target b was previously
failed, so the batch holds one synthetic skip entry. -/
def cBr1 : BatchResult := ⟨[("b", .error skip_error)], [], ["b"]⟩

/-- The PlaybookResult of running cPb3 on cM34 under cOracle34. -/
def cPr34 : PlaybookResult :=
  ⟨"pb3", [("t0", cBr0), ("t1", cBr1)], false, ["b"], ["b"]⟩

def cM4 : AnsibleManager := ⟨[("a", HostConfig.default)], 15⟩

/-- The PlaybookResult of running cPb4 on cM4 under cOracle4: the ignored
shell task aborts wholesale, clearing overall_success without recording a
task result. -/
def cPr4 : PlaybookResult := ⟨"pb4", [], false, [], []⟩

def cOracle4 : TaskOracle := fun _ _ _ => .error (.CommandError "copyfail")

def cPb4 : Playbook := ⟨"pb4", [⟨"sh", .Shell "echo hi", none, true⟩]⟩

def cEnv6 : Nat → ConnectEnv := fun _ => ⟨none, none, none, true⟩

def cOpts7 : TemplateOptions String :=
  ⟨"app.conf.j2", "/etc/app.conf", [], none, none, none, false, none⟩

def cCmdOk : String → CommandResult := fun _ => ⟨0, "", ""⟩

def cOpts8 : TemplateOptions String :=
  ⟨"nginx.j2", "/etc/nginx/test.conf", [], none, none, none, false,
    some "nginx -t -c %s"⟩

def cFs8 : RemoteFs := [("/etc/nginx/test.conf", "old config")]

def cValFail : String → CommandResult := fun _ => ⟨1, "", "bad config"⟩

/-! ## Association-map lemmas -/

theorem alookup_append {α : Type} (l l' : List (String × α)) (k : String) :
    alookup (l ++ l') k =
      match alookup l k with
      | some v => some v
      | none => alookup l' k := by
  induction l with
  | nil => simp [alookup]
  | cons e t ih =>
      by_cases h : e.1 = k
      · simp [alookup, h]
      · simpa [alookup, h] using ih

theorem alookup_replaceEntry_self {α : Type} (l : List (String × α))
    (k : String) (v : α) :
    alookup (replaceEntry l k v) k = (alookup l k).map (fun _ => v) := by
  induction l with
  | nil => simp [replaceEntry, alookup]
  | cons e t ih =>
      obtain ⟨a, b⟩ := e
      by_cases he : a = k
      · subst he; simp [replaceEntry, alookup]
      · simpa [replaceEntry, alookup, he] using ih

theorem alookup_replaceEntry_ne {α : Type} (l : List (String × α))
    (k k' : String) (v : α) (h : k' ≠ k) :
    alookup (replaceEntry l k v) k' = alookup l k' := by
  induction l with
  | nil => simp [replaceEntry]
  | cons e t ih =>
      obtain ⟨a, b⟩ := e
      have hk : ¬ k = k' := fun hh => h hh.symm
      by_cases he : a = k
      · subst he; simpa [replaceEntry, alookup, hk] using ih
      · by_cases he' : a = k'
        · subst he'; simp [replaceEntry, alookup, he]
        · simpa [replaceEntry, alookup, he, he'] using ih

theorem alookup_amInsert_self {α : Type} (l : List (String × α))
    (k : String) (v : α) : alookup (amInsert l k v) k = some v := by
  unfold amInsert
  by_cases h : (alookup l k).isSome
  · rw [if_pos h, alookup_replaceEntry_self]
    cases hl : alookup l k with
    | none => rw [hl] at h; simp at h
    | some w => simp
  · rw [if_neg h, alookup_append]
    have h0 : alookup l k = none := by
      cases hl : alookup l k with
      | none => rfl
      | some w => rw [hl] at h; simp at h
    rw [h0]; simp [alookup]

theorem alookup_amInsert_ne {α : Type} (l : List (String × α))
    (k k' : String) (v : α) (h : k' ≠ k) :
    alookup (amInsert l k v) k' = alookup l k' := by
  unfold amInsert
  by_cases hs : (alookup l k).isSome
  · rw [if_pos hs, alookup_replaceEntry_ne l k k' v h]
  · rw [if_neg hs, alookup_append]
    have hk : ¬ k = k' := fun hh => h hh.symm
    cases hl : alookup l k' with
    | some w => simp
    | none => simp [alookup, hk]

theorem alookup_amErase_self {α : Type} (l : List (String × α))
    (k : String) : alookup (amErase l k) k = none := by
  induction l with
  | nil => simp [amErase, alookup]
  | cons e t ih =>
      obtain ⟨a, b⟩ := e
      by_cases he : a = k
      · subst he; simpa [amErase, List.filter_cons] using ih
      · simpa [amErase, List.filter_cons, alookup, he] using ih

theorem alookup_amErase_ne {α : Type} (l : List (String × α))
    (k k' : String) (h : k' ≠ k) :
    alookup (amErase l k) k' = alookup l k' := by
  induction l with
  | nil => simp [amErase, alookup]
  | cons e t ih =>
      obtain ⟨a, b⟩ := e
      by_cases he : a = k
      · subst he
        have he' : ¬ a = k' := fun hh => h hh.symm
        simpa [amErase, List.filter_cons, alookup, he'] using ih
      · by_cases he' : a = k'
        · subst he'
          simp [amErase, List.filter_cons, alookup, he]
        · simpa [amErase, List.filter_cons, alookup, he, he'] using ih

/-! ## String lemmas -/

theorem string_append_ne_base (s t : String) (ht : t.length ≠ 0) :
    s ++ t ≠ s := by
  intro h
  have h2 := congrArg String.length h
  rw [String.length_append] at h2
  omega

theorem remote_temp_path_ne_base (base sfx : String) :
    remote_temp_path base sfx ≠ base := by
  unfold remote_temp_path
  rw [show base ++ ".tmp." ++ sfx = base ++ (".tmp." ++ sfx) by
    rw [String.append_assoc]]
  apply string_append_ne_base
  rw [String.length_append]
  have h5 : ".tmp.".length = 5 := by decide
  omega

theorem backup_path_ne_base (base ts : String) :
    base ++ ".bak." ++ ts ≠ base := by
  rw [show base ++ ".bak." ++ ts = base ++ (".bak." ++ ts) by
    rw [String.append_assoc]]
  apply string_append_ne_base
  rw [String.length_append]
  have h5 : ".bak.".length = 5 := by decide
  omega

/-! ## File-system projection lemmas -/

theorem fsLookup_fsWrite_self (fs : RemoteFs) (p c : String) :
    fsLookup (fsWrite fs p c) p = some c :=
  alookup_amInsert_self fs p c

theorem fsLookup_fsWrite_ne (fs : RemoteFs) (p c p' : String)
    (h : p' ≠ p) : fsLookup (fsWrite fs p c) p' = fsLookup fs p' :=
  alookup_amInsert_ne fs p p' c h

theorem fsLookup_fsRemove_self (fs : RemoteFs) (p : String) :
    fsLookup (fsRemove fs p) p = none :=
  alookup_amErase_self fs p

theorem fsLookup_fsRemove_ne (fs : RemoteFs) (p p' : String)
    (h : p' ≠ p) : fsLookup (fsRemove fs p) p' = fsLookup fs p' :=
  alookup_amErase_ne fs p p' h

/-! ## Trace-counting lemmas -/

theorem count_scp_append (a b : List RAction) :
    count_scp (a ++ b) = count_scp a + count_scp b := by
  simp [count_scp, List.filter_append]

theorem count_scp_attrs (opts : FileCopyOptions) (p : String) :
    count_scp (apply_file_attributes opts p) = 0 := by
  unfold apply_file_attributes
  cases opts.mode <;> cases opts.owner <;> cases opts.group <;>
    simp [count_scp, is_scp]

/-! ## Facts about the local hash info -/

theorem local_hash_info_size (H : String → String) (c : String)
    (opts : FileCopyOptions) :
    (local_hash_info H c opts).size = c.utf8ByteSize := by
  unfold local_hash_info
  cases opts.precomputed_hash <;> rfl

theorem local_hash_info_hash_of_valid (H : String → String) (c : String)
    (opts : FileCopyOptions)
    (hpre : opts.precomputed_hash = none ∨
      opts.precomputed_hash = some (H c)) :
    (local_hash_info H c opts).hash = H c := by
  unfold local_hash_info
  rcases hpre with h | h <;> rw [h]

/-! ## Reduction lemmas for the copy protocol -/

theorem copy_skip (H : String → String) (fs : RemoteFs)
    (localContent remotePath : String) (opts : FileCopyOptions)
    (sfx backupTs transferred : String) (rh : FileHashInfo)
    (hg : get_remote_file_hash H fs remotePath = some rh)
    (h1 : rh.hash = (local_hash_info H localContent opts).hash)
    (h2 : rh.size = (local_hash_info H localContent opts).size) :
    copy_file_to_remote_with_options H fs localContent remotePath opts
        sfx backupTs transferred =
      { result := .ok ⟨true, 0,
          "File unchanged (hash: " ++ rh.hash ++ "), attributes updated"⟩,
        fs := fs,
        trace := [.hashProbe remotePath]
          ++ apply_file_attributes opts remotePath } := by
  unfold copy_file_to_remote_with_options
  rw [hg]
  simp [h1, h2]

theorem copy_eq_transfer_of_need (H : String → String) (fs : RemoteFs)
    (localContent remotePath : String) (opts : FileCopyOptions)
    (sfx backupTs transferred : String)
    (h : need_transfer H fs localContent remotePath opts = true) :
    copy_file_to_remote_with_options H fs localContent remotePath opts
        sfx backupTs transferred =
      copy_transfer_phase H fs localContent remotePath opts sfx backupTs
        transferred := by
  unfold copy_file_to_remote_with_options
  unfold need_transfer at h
  cases hg : get_remote_file_hash H fs remotePath with
  | none => rfl
  | some rh =>
      rw [hg] at h
      simp only [Bool.not_eq_true', Bool.and_eq_false_iff, beq_eq_false_iff_ne,
        ne_eq] at h
      dsimp only
      rw [if_neg]
      intro hc
      rcases h with h | h <;> [exact h hc.1; exact h hc.2]

theorem transfer_phase_faithful_result (H : String → String) (fs : RemoteFs)
    (localContent remotePath : String) (opts : FileCopyOptions)
    (sfx backupTs : String)
    (hh : (local_hash_info H localContent opts).hash = H localContent) :
    (copy_transfer_phase H fs localContent remotePath opts sfx backupTs
        localContent).result =
      .ok ⟨true, localContent.utf8ByteSize,
        copy_success_message localContent.utf8ByteSize
          (local_hash_info H localContent opts).hash opts⟩ := by
  unfold copy_transfer_phase
  simp [hh, local_hash_info_size]

theorem transfer_phase_faithful_dest (H : String → String) (fs : RemoteFs)
    (localContent remotePath : String) (opts : FileCopyOptions)
    (sfx backupTs : String)
    (hh : (local_hash_info H localContent opts).hash = H localContent) :
    fsLookup (copy_transfer_phase H fs localContent remotePath opts sfx
        backupTs localContent).fs remotePath = some localContent := by
  unfold copy_transfer_phase
  simp [hh, local_hash_info_size, fsLookup_fsWrite_self]

theorem transfer_phase_scp_count (H : String → String) (fs : RemoteFs)
    (localContent remotePath : String) (opts : FileCopyOptions)
    (sfx backupTs transferred : String) :
    count_scp (copy_transfer_phase H fs localContent remotePath opts sfx
        backupTs transferred).trace = 1 := by
  cases hm : opts.mode <;> cases ho : opts.owner <;> cases hgr : opts.group <;>
    simp [copy_transfer_phase, apply_file_attributes, count_scp, is_scp,
      List.filter_append, apply_ite CopyOutcome.trace,
      apply_ite (List.filter is_scp), apply_ite List.length, hm, ho, hgr]

/-- C1 auxiliary: the second call after a faithful deploy probes a
destination holding exactly the local content. -/
theorem probe_after_faithful (H : String → String) (fs : RemoteFs)
    (localContent remotePath : String) (opts : FileCopyOptions)
    (sfx backupTs : String)
    (hh : (local_hash_info H localContent opts).hash = H localContent) :
    get_remote_file_hash H (copy_transfer_phase H fs localContent remotePath
        opts sfx backupTs localContent).fs remotePath =
      some ⟨"sha256", H localContent, localContent.utf8ByteSize⟩ := by
  unfold get_remote_file_hash
  rw [transfer_phase_faithful_dest H fs localContent remotePath opts sfx
    backupTs hh]
  rfl

/-- C1: FileDeploy is idempotent.  For every remote state, local content
and destination, two back-to-back calls of
copy_file_to_remote_with_options with the same inputs over a faithful
channel (the staged bytes equal the local content) and a valid
precomputed hash transfer bytes at most once: the second call performs no
scp send at all and returns a FileTransferResult with
bytes_transferred = 0, because the phase-2 probe finds the destination's
digest and size equal to the local ones. -/
theorem copy_file_idempotent (H : String → String) (fs : RemoteFs)
    (localContent remotePath sfx1 ts1 sfx2 ts2 : String)
    (opts : FileCopyOptions)
    (hpre : opts.precomputed_hash = none ∨
      opts.precomputed_hash = some (H localContent)) :
    (copy_file_to_remote_with_options H
        (copy_file_to_remote_with_options H fs localContent remotePath opts
          sfx1 ts1 localContent).fs
        localContent remotePath opts sfx2 ts2 localContent).result =
      .ok ⟨true, 0, "File unchanged (hash: "
        ++ (local_hash_info H localContent opts).hash
        ++ "), attributes updated"⟩ ∧
    count_scp (copy_file_to_remote_with_options H
        (copy_file_to_remote_with_options H fs localContent remotePath opts
          sfx1 ts1 localContent).fs
        localContent remotePath opts sfx2 ts2 localContent).trace = 0 ∧
    count_scp (copy_file_to_remote_with_options H fs localContent remotePath
        opts sfx1 ts1 localContent).trace
      + count_scp (copy_file_to_remote_with_options H
          (copy_file_to_remote_with_options H fs localContent remotePath opts
            sfx1 ts1 localContent).fs
          localContent remotePath opts sfx2 ts2 localContent).trace ≤ 1 := by
  have hh := local_hash_info_hash_of_valid H localContent opts hpre
  by_cases hneed : need_transfer H fs localContent remotePath opts = true
  · have e1 := copy_eq_transfer_of_need H fs localContent remotePath opts
      sfx1 ts1 localContent hneed
    rw [e1]
    have hg2 := probe_after_faithful H fs localContent remotePath opts
      sfx1 ts1 hh
    have e2 := copy_skip H
      (copy_transfer_phase H fs localContent remotePath opts sfx1 ts1
        localContent).fs
      localContent remotePath opts sfx2 ts2 localContent _ hg2
      (by simp [hh]) (by simp [local_hash_info_size])
    rw [e2]
    refine ⟨by rw [hh], ?_, ?_⟩
    · show count_scp ([RAction.hashProbe remotePath]
        ++ apply_file_attributes opts remotePath) = 0
      rw [count_scp_append, count_scp_attrs]
      simp [count_scp, is_scp]
    · have c2 : count_scp ([RAction.hashProbe remotePath]
          ++ apply_file_attributes opts remotePath) = 0 := by
        rw [count_scp_append, count_scp_attrs]
        simp [count_scp, is_scp]
      rw [c2, transfer_phase_scp_count]
  · have hnf : need_transfer H fs localContent remotePath opts = false := by
      revert hneed
      cases need_transfer H fs localContent remotePath opts <;> simp
    unfold need_transfer at hnf
    cases hg : get_remote_file_hash H fs remotePath with
    | none => rw [hg] at hnf; simp at hnf
    | some rh =>
        rw [hg] at hnf
        simp only [Bool.not_eq_false', Bool.and_eq_true, beq_iff_eq] at hnf
        obtain ⟨h1, h2⟩ := hnf
        have e1 := copy_skip H fs localContent remotePath opts sfx1 ts1
          localContent rh hg h1 h2
        rw [e1]
        have e2 := copy_skip H fs localContent remotePath opts sfx2 ts2
          localContent rh hg h1 h2
        rw [e2]
        have c0 : count_scp ([RAction.hashProbe remotePath]
            ++ apply_file_attributes opts remotePath) = 0 := by
          rw [count_scp_append, count_scp_attrs]
          simp [count_scp, is_scp]
        exact ⟨by rw [h1], c0, by rw [c0]; omega⟩

/-- C1 witness: the idempotence law at a concrete input (empty remote,
content "data", destination /tmp/f, default options). -/
theorem copy_file_idempotent_witness :
    (FileCopyOptions.default.precomputed_hash = none ∨
      FileCopyOptions.default.precomputed_hash = some (cH "data")) ∧
    ((copy_file_to_remote_with_options cH
        (copy_file_to_remote_with_options cH [] "data" "/tmp/f"
          FileCopyOptions.default "1" "T1" "data").fs
        "data" "/tmp/f" FileCopyOptions.default "2" "T2" "data").result =
      .ok ⟨true, 0, "File unchanged (hash: "
        ++ (local_hash_info cH "data" FileCopyOptions.default).hash
        ++ "), attributes updated"⟩ ∧
     count_scp (copy_file_to_remote_with_options cH
        (copy_file_to_remote_with_options cH [] "data" "/tmp/f"
          FileCopyOptions.default "1" "T1" "data").fs
        "data" "/tmp/f" FileCopyOptions.default "2" "T2" "data").trace = 0 ∧
     count_scp (copy_file_to_remote_with_options cH [] "data" "/tmp/f"
          FileCopyOptions.default "1" "T1" "data").trace
       + count_scp (copy_file_to_remote_with_options cH
          (copy_file_to_remote_with_options cH [] "data" "/tmp/f"
            FileCopyOptions.default "1" "T1" "data").fs
          "data" "/tmp/f" FileCopyOptions.default "2" "T2" "data").trace ≤ 1) :=
  ⟨Or.inl rfl,
    copy_file_idempotent cH [] "data" "/tmp/f" "1" "T1" "2" "T2"
      FileCopyOptions.default (Or.inl rfl)⟩

/-- C2: whenever a FileDeploy call reaches the staged transfer and the
post-transfer verification finds the staging file's digest differing from
the local one, or its size differing, the operation removes the staging
file, returns a FileOperationError describing the mismatching digests or
sizes, leaves the destination path unchanged, and never issues the atomic
mv on that path. -/
theorem copy_verify_mismatch_fatal (H : String → String) (fs : RemoteFs)
    (localContent remotePath sfx ts transferred : String)
    (opts : FileCopyOptions)
    (hneed : need_transfer H fs localContent remotePath opts = true)
    (hmis : H transferred ≠ (local_hash_info H localContent opts).hash ∨
      transferred.utf8ByteSize ≠ (local_hash_info H localContent opts).size) :
    ((copy_file_to_remote_with_options H fs localContent remotePath opts
        sfx ts transferred).result =
      .error (.FileOperationError (hash_mismatch_message
        (local_hash_info H localContent opts).hash (H transferred))) ∨
     (copy_file_to_remote_with_options H fs localContent remotePath opts
        sfx ts transferred).result =
      .error (.FileOperationError (size_mismatch_message
        (local_hash_info H localContent opts).size
        transferred.utf8ByteSize))) ∧
    fsLookup (copy_file_to_remote_with_options H fs localContent remotePath
        opts sfx ts transferred).fs remotePath = fsLookup fs remotePath ∧
    fsLookup (copy_file_to_remote_with_options H fs localContent remotePath
        opts sfx ts transferred).fs (remote_temp_path remotePath sfx) =
      none ∧
    ∀ a b, RAction.mvCommit a b ∉
      (copy_file_to_remote_with_options H fs localContent remotePath opts
        sfx ts transferred).trace := by
  rw [copy_eq_transfer_of_need H fs localContent remotePath opts sfx ts
    transferred hneed]
  have hnt : remotePath ≠ remote_temp_path remotePath sfx :=
    (remote_temp_path_ne_base remotePath sfx).symm
  have hlook : ∀ fsx : RemoteFs,
      fsLookup (fsRemove (fsWrite fsx (remote_temp_path remotePath sfx)
        transferred) (remote_temp_path remotePath sfx)) remotePath =
      fsLookup fsx remotePath := by
    intro fsx
    rw [fsLookup_fsRemove_ne _ _ _ hnt, fsLookup_fsWrite_ne _ _ _ _ hnt]
  have hback : fsLookup (if opts.backup = true then
      (match fsLookup fs remotePath with
       | some c => fsWrite fs (remotePath ++ ".bak." ++ ts) c
       | none => fs)
      else fs) remotePath = fsLookup fs remotePath := by
    split_ifs
    · cases hc : fsLookup fs remotePath with
      | none => dsimp only; exact hc
      | some c =>
          dsimp only
          rw [fsLookup_fsWrite_ne _ _ _ _
            (backup_path_ne_base remotePath ts).symm]
          exact hc
    · rfl
  have hgone : ∀ fsx : RemoteFs,
      fsLookup (fsRemove fsx (remote_temp_path remotePath sfx))
        (remote_temp_path remotePath sfx) = none := by
    intro fsx
    exact fsLookup_fsRemove_self _ _
  unfold copy_transfer_phase
  dsimp only
  by_cases h1 : H transferred = (local_hash_info H localContent opts).hash
  · have h2 : transferred.utf8ByteSize ≠
        (local_hash_info H localContent opts).size := by
      rcases hmis with h | h
      · exact absurd h1 h
      · exact h
    rw [if_neg (not_not_intro h1), if_pos h2]
    refine ⟨Or.inr rfl, ?_, hgone _, ?_⟩
    · rw [hlook, hback]
    · intro a b hmem
      simp only [List.mem_append, List.mem_cons, List.mem_singleton,
        List.not_mem_nil, or_false] at hmem
      rcases hmem with ((hm | hm) | hm) | hm | hm
      · split at hm
        · split at hm <;> simp_all
        · simp_all
      · split at hm <;> simp_all
      · simp_all
      · simp_all
      · simp_all
  · rw [if_pos h1]
    refine ⟨Or.inl rfl, ?_, hgone _, ?_⟩
    · rw [hlook, hback]
    · intro a b hmem
      simp only [List.mem_append, List.mem_cons, List.mem_singleton,
        List.not_mem_nil, or_false] at hmem
      rcases hmem with ((hm | hm) | hm) | hm | hm
      · split at hm
        · split at hm <;> simp_all
        · simp_all
      · split at hm <;> simp_all
      · simp_all
      · simp_all
      · simp_all

/-- C2 witness: a corrupted channel (staged bytes "datX" against local
"data") on an empty remote fails the verification, removes the staging
file and leaves the destination untouched. -/
theorem copy_verify_mismatch_fatal_witness :
    (need_transfer cH [] "data" "/tmp/f" FileCopyOptions.default = true ∧
     (cH "datX" ≠ (local_hash_info cH "data" FileCopyOptions.default).hash ∨
      ("datX" : String).utf8ByteSize ≠
        (local_hash_info cH "data" FileCopyOptions.default).size)) ∧
    (((copy_file_to_remote_with_options cH [] "data" "/tmp/f"
        FileCopyOptions.default "1" "T1" "datX").result =
      .error (.FileOperationError (hash_mismatch_message
        (local_hash_info cH "data" FileCopyOptions.default).hash
        (cH "datX"))) ∨
     (copy_file_to_remote_with_options cH [] "data" "/tmp/f"
        FileCopyOptions.default "1" "T1" "datX").result =
      .error (.FileOperationError (size_mismatch_message
        (local_hash_info cH "data" FileCopyOptions.default).size
        ("datX" : String).utf8ByteSize))) ∧
    fsLookup (copy_file_to_remote_with_options cH [] "data" "/tmp/f"
        FileCopyOptions.default "1" "T1" "datX").fs "/tmp/f" =
      fsLookup [] "/tmp/f" ∧
    fsLookup (copy_file_to_remote_with_options cH [] "data" "/tmp/f"
        FileCopyOptions.default "1" "T1" "datX").fs
      (remote_temp_path "/tmp/f" "1") = none ∧
    ∀ a b, RAction.mvCommit a b ∉
      (copy_file_to_remote_with_options cH [] "data" "/tmp/f"
        FileCopyOptions.default "1" "T1" "datX").trace) :=
  ⟨⟨by decide, Or.inl (by decide)⟩,
    copy_verify_mismatch_fatal cH [] "data" "/tmp/f" "1" "T1" "datX"
      FileCopyOptions.default (by decide) (Or.inl (by decide))⟩

/-- C10: a malformed (non-octal) mode string does not fail the staging
step: the scp send silently falls back to permission bits 0o644 because
the parse error is swallowed by unwrap_or, and the malformed string is
passed verbatim only to the later chmod command. -/
theorem copy_malformed_mode_fallback (H : String → String) (fs : RemoteFs)
    (localContent remotePath sfx ts transferred m : String)
    (opts : FileCopyOptions)
    (hm : opts.mode = some m)
    (hbad : parse_octal_u32 m = none)
    (hneed : need_transfer H fs localContent remotePath opts = true) :
    initial_mode opts = 0o644 ∧
    RAction.scpSend (remote_temp_path remotePath sfx) 0o644 transferred ∈
      (copy_file_to_remote_with_options H fs localContent remotePath opts
        sfx ts transferred).trace ∧
    (H transferred = (local_hash_info H localContent opts).hash →
     transferred.utf8ByteSize = (local_hash_info H localContent opts).size →
     RAction.chmodCmd m remotePath ∈
       (copy_file_to_remote_with_options H fs localContent remotePath opts
         sfx ts transferred).trace) ∧
    RAction.render (.chmodCmd m remotePath) =
      "chmod " ++ m ++ " '" ++ remotePath ++ "'" := by
  have hini : initial_mode opts = 0o644 := by
    unfold initial_mode
    rw [hm]
    dsimp only
    rw [hbad]
    rfl
  rw [copy_eq_transfer_of_need H fs localContent remotePath opts sfx ts
    transferred hneed]
  refine ⟨hini, ?_, ?_, rfl⟩
  · unfold copy_transfer_phase
    dsimp only
    rw [hini]
    split_ifs <;> simp [List.mem_append]
  · intro h1 h2
    unfold copy_transfer_phase
    dsimp only
    rw [if_neg (not_not_intro h1), if_neg (not_not_intro h2)]
    simp [List.mem_append, apply_file_attributes, hm]

/-- C10 witness: mode "79" is not octal; the staging send still happens
with mode 0o644 and the chmod command carries "79" verbatim. -/
theorem copy_malformed_mode_fallback_witness :
    (cOpts10.mode = some "79" ∧ parse_octal_u32 "79" = none ∧
     need_transfer cH [] "data" "/tmp/f" cOpts10 = true) ∧
    (initial_mode cOpts10 = 0o644 ∧
     RAction.scpSend (remote_temp_path "/tmp/f" "1") 0o644 "data" ∈
       (copy_file_to_remote_with_options cH [] "data" "/tmp/f" cOpts10
         "1" "T1" "data").trace ∧
     (cH "data" = (local_hash_info cH "data" cOpts10).hash →
      ("data" : String).utf8ByteSize = (local_hash_info cH "data" cOpts10).size →
      RAction.chmodCmd "79" "/tmp/f" ∈
        (copy_file_to_remote_with_options cH [] "data" "/tmp/f" cOpts10
          "1" "T1" "data").trace) ∧
     RAction.render (.chmodCmd "79" "/tmp/f") =
       "chmod " ++ "79" ++ " '" ++ "/tmp/f" ++ "'") :=
  ⟨⟨by decide, by decide, by decide⟩,
    copy_malformed_mode_fallback cH [] "data" "/tmp/f" "1" "T1" "data" "79"
      cOpts10 (by decide) (by decide) (by decide)⟩

/-- C6 counterexample: the claim says an authentication failure is never
retried.  A configuration with no authentication method fails its first
connect_once with AuthenticationError, yet SshClient::new makes all three
attempts (sleeping 1 s and 2 s in between): the retry loop retries every
error kind, authentication included. -/
theorem ssh_retry_auth_counterexample :
    connect_once HostConfig.default (cEnv6 1) =
      .error (.AuthenticationError "No authentication method provided") ∧
    (ssh_client_new HostConfig.default cEnv6).2.1 = 3 ∧
    (ssh_client_new HostConfig.default cEnv6).2.2 = [1000, 2000] := by
  decide

/-- C6 amended: session construction retries connection establishment up
to 3 attempts with linear backoff 1000 ms times (attempt - 1) before each
retry, and it retries every failure uniformly, authentication failures
included: every attempt before the final one failed, and the call
succeeds exactly when its final attempt does. -/
theorem ssh_client_new_retry_spec (cfg : HostConfig)
    (env : Nat → ConnectEnv) :
    (1 ≤ (ssh_client_new cfg env).2.1 ∧ (ssh_client_new cfg env).2.1 ≤ 3) ∧
    (ssh_client_new cfg env).2.2 =
      (List.range ((ssh_client_new cfg env).2.1 - 1)).map
        (fun i => 1000 * (i + 1)) ∧
    (∀ k, 1 ≤ k → k < (ssh_client_new cfg env).2.1 →
      ∃ e, connect_once cfg (env k) = .error e) ∧
    ((ssh_client_new cfg env).1 = .ok () ↔
      connect_once cfg (env (ssh_client_new cfg env).2.1) = .ok ()) := by
  unfold ssh_client_new
  cases h1 : connect_once cfg (env 1) with
  | ok u =>
      simp only [connect_attempts, h1]
      refine ⟨by omega, by simp, ?_, ?_⟩
      · intro k hk1 hk2; omega
      · trivial
  | error e1 =>
      cases h2 : connect_once cfg (env 2) with
      | ok u =>
          simp only [connect_attempts, h1, h2]
          refine ⟨by omega, by simp [List.range_succ], ?_, ?_⟩
          · intro k hk1 hk2
            have hk : k = 1 := by omega
            subst hk
            exact ⟨e1, h1⟩
          · trivial
      | error e2 =>
          cases h3 : connect_once cfg (env 3) with
          | ok u =>
              simp only [connect_attempts, h1, h2, h3]
              refine ⟨by omega, by simp [List.range_succ], ?_, ?_⟩
              · intro k hk1 hk2
                have hk : k = 1 ∨ k = 2 := by omega
                rcases hk with hk | hk <;> subst hk
                · exact ⟨e1, h1⟩
                · exact ⟨e2, h2⟩
              · trivial
          | error e3 =>
              simp only [connect_attempts, h1, h2, h3]
              refine ⟨by omega, by simp [List.range_succ], ?_, ?_⟩
              · intro k hk1 hk2
                have hk : k = 1 ∨ k = 2 := by omega
                rcases hk with hk | hk <;> subst hk
                · exact ⟨e1, h1⟩
                · exact ⟨e2, h2⟩
              · simp

/-! ## Batch-closure lemmas -/

theorem amInsert_of_absent {α : Type} (l : List (String × α)) (k : String)
    (v : α) (h : alookup l k = none) : amInsert l k v = l ++ [(k, v)] := by
  unfold amInsert
  rw [h]
  simp

theorem alookup_map_pair_of_not_mem {α : Type} (l : List String)
    (g : String → α) (k : String) (h : k ∉ l) :
    alookup (l.map (fun x => (x, g x))) k = none := by
  induction l with
  | nil => simp [alookup]
  | cons a t ih =>
      have ha : ¬ a = k := fun hh => h (hh ▸ List.mem_cons_self a t)
      have ht : k ∉ t := fun hh => h (List.mem_cons_of_mem a hh)
      simpa [alookup, ha] using ih ht

theorem alookup_map_pair_of_mem {α : Type} (l : List String)
    (g : String → α) (k : String) (h : k ∈ l) :
    alookup (l.map (fun x => (x, g x))) k = some (g k) := by
  induction l with
  | nil => simp at h
  | cons a t ih =>
      by_cases ha : a = k
      · subst ha; simp [alookup]
      · have ht : k ∈ t := by
          rcases List.mem_cons.mp h with hh | hh
          · exact absurd hh.symm ha
          · exact hh
        simpa [alookup, ha] using ih ht

theorem spawn_fold_spec (m : AnsibleManager) (ns : List String)
    (acc : BatchResult) (q : List String) :
    ns.foldl
      (fun (p : BatchResult × List String) h =>
        match alookup m.hosts h with
        | some _ => (p.1, p.2 ++ [h])
        | none => (p.1.add_result h (.error (not_found_error h)), p.2))
      (acc, q) =
    ((unknown_hosts m ns).foldl
        (fun b h => b.add_result h (.error (not_found_error h))) acc,
      q ++ known_hosts m ns) := by
  induction ns generalizing acc q with
  | nil => simp [unknown_hosts, known_hosts]
  | cons h t ih =>
      cases hl : alookup m.hosts h with
      | some c =>
          simp only [List.foldl_cons, hl]
          rw [ih]
          simp [unknown_hosts, known_hosts, List.filter_cons, hl,
            List.append_assoc]
      | none =>
          simp only [List.foldl_cons, hl]
          rw [ih]
          simp [unknown_hosts, known_hosts, List.filter_cons, hl]

theorem add_result_fold_spec (hs : List String) (f : String → HostResult)
    (br : BatchResult) (hnd : hs.Nodup)
    (habs : ∀ h ∈ hs, alookup br.results h = none) :
    hs.foldl (fun b h => b.add_result h (f h)) br =
      { results := br.results ++ hs.map (fun h => (h, f h)),
        successful := br.successful
          ++ hs.filter (fun h => hostResultOk (f h)),
        failed := br.failed
          ++ hs.filter (fun h => !(hostResultOk (f h))) } := by
  induction hs generalizing br with
  | nil => simp
  | cons h t ih =>
      have habs_h : alookup br.results h = none := habs h (by simp)
      have hnt : h ∉ t := (List.nodup_cons.mp hnd).1
      have hnd' : t.Nodup := (List.nodup_cons.mp hnd).2
      have hstep : (br.add_result h (f h)).results =
          br.results ++ [(h, f h)] := by
        unfold BatchResult.add_result
        exact amInsert_of_absent _ _ _ habs_h
      have habs' : ∀ h' ∈ t,
          alookup (br.add_result h (f h)).results h' = none := by
        intro h' hh'
        rw [hstep, alookup_append, habs h' (List.mem_cons_of_mem h hh')]
        have hne : ¬ h = h' := fun hh => hnt (hh ▸ hh')
        simp [alookup, hne]
      rw [List.foldl_cons, ih (br.add_result h (f h)) hnd' habs']
      cases hf : f h <;>
        simp [BatchResult.add_result, amInsert_of_absent _ _ _ habs_h,
          List.filter_cons, hf, hostResultOk, List.append_assoc]

theorem eco_eq (m : AnsibleManager) (ns : List String)
    (op : String → HostResult) :
    execute_concurrent_operation m ns op =
      (known_hosts m ns).foldl (fun br h => br.add_result h (op h))
        ((unknown_hosts m ns).foldl
          (fun b h => b.add_result h (.error (not_found_error h)))
          BatchResult.new) := by
  unfold execute_concurrent_operation
  rw [spawn_fold_spec m ns BatchResult.new []]
  simp

theorem known_not_unknown (m : AnsibleManager) (ns : List String)
    (h : String) (hk : h ∈ known_hosts m ns) :
    h ∉ unknown_hosts m ns := by
  intro hu
  rw [known_hosts, List.mem_filter] at hk
  rw [unknown_hosts, List.mem_filter] at hu
  cases hl : alookup m.hosts h with
  | none => rw [hl] at hk; simp at hk
  | some c => rw [hl] at hu; simp at hu

/-- Explicit form of a batch over a duplicate-free target list: unknown
targets recorded first with their not-found errors, then each known
target with its operation outcome; the successful and failed lists are
the corresponding filters. -/
theorem eco_spec (m : AnsibleManager) (ns : List String)
    (op : String → HostResult) (hnd : ns.Nodup) :
    execute_concurrent_operation m ns op =
      { results := (unknown_hosts m ns).map
            (fun h => (h, .error (not_found_error h)))
          ++ (known_hosts m ns).map (fun h => (h, op h)),
        successful := (known_hosts m ns).filter
          (fun h => hostResultOk (op h)),
        failed := unknown_hosts m ns
          ++ (known_hosts m ns).filter
            (fun h => !(hostResultOk (op h))) } := by
  rw [eco_eq]
  have hndu : (unknown_hosts m ns).Nodup := hnd.filter _
  have hndk : (known_hosts m ns).Nodup := hnd.filter _
  rw [add_result_fold_spec (unknown_hosts m ns)
    (fun h => .error (not_found_error h)) BatchResult.new hndu
    (by intro h _; simp [BatchResult.new, alookup])]
  have hok : (unknown_hosts m ns).filter
      (fun h => hostResultOk (.error (not_found_error h))) = [] := by
    simp [hostResultOk]
  have herr : (unknown_hosts m ns).filter
      (fun h => !(hostResultOk (.error (not_found_error h)))) =
      unknown_hosts m ns := by
    simp [hostResultOk]
  have habs : ∀ h ∈ known_hosts m ns,
      alookup (BatchResult.new.results
        ++ (unknown_hosts m ns).map
          (fun h => (h, (.error (not_found_error h) : HostResult)))) h
        = none := by
    intro h hh
    show alookup ([] ++ _) h = none
    rw [List.nil_append]
    exact alookup_map_pair_of_not_mem _ _ _ (known_not_unknown m ns h hh)
  rw [add_result_fold_spec (known_hosts m ns) op _ hndk habs]
  simp [BatchResult.new, hok, herr]

theorem unknown_known_length (m : AnsibleManager) (ns : List String) :
    (unknown_hosts m ns).length + (known_hosts m ns).length = ns.length := by
  induction ns with
  | nil => simp [unknown_hosts, known_hosts]
  | cons h t ih =>
      cases hl : alookup m.hosts h <;>
        simp [unknown_hosts, known_hosts, List.filter_cons, hl] at ih ⊢ <;>
        omega

/-- C5 counterexample: the claim asserts every batch satisfies
card-closure, |results| = |target_hosts|, with unknown ids included.  A
target list naming the same unknown id twice yields a single result-map
entry for two targets, so the cardinality clause fails on duplicates. -/
theorem batch_closure_counterexample :
    (execute_concurrent_operation cM5 ["x", "x"] cOp5).results.length = 1 ∧
    (["x", "x"] : List String).length = 2 ∧
    (execute_concurrent_operation cM5 ["x", "x"] cOp5).failed =
      ["x", "x"] := by
  decide

/-- C5 amended: for every batch whose target list has no duplicate ids,
batch closure holds: the successful and failed lists are disjoint, their
union is exactly the key set of the result map, the keys are pairwise
distinct, |results| = |target_hosts|, and every unknown target id is
recorded as Err(SshConnectionError "Host X not found"). -/
theorem batch_closure (m : AnsibleManager) (ns : List String)
    (op : String → HostResult) (hnd : ns.Nodup) :
    (execute_concurrent_operation m ns op).results.length = ns.length ∧
    ((execute_concurrent_operation m ns op).results.map Prod.fst).Nodup ∧
    (∀ h, h ∈ (execute_concurrent_operation m ns op).successful →
      h ∉ (execute_concurrent_operation m ns op).failed) ∧
    (∀ h, (h ∈ (execute_concurrent_operation m ns op).successful ∨
        h ∈ (execute_concurrent_operation m ns op).failed) ↔
      h ∈ (execute_concurrent_operation m ns op).results.map Prod.fst) ∧
    (∀ h, h ∈ ns → alookup m.hosts h = none →
      alookup (execute_concurrent_operation m ns op).results h =
        some (.error (not_found_error h))) := by
  rw [eco_spec m ns op hnd]
  have hkeys : (((unknown_hosts m ns).map
        (fun h => (h, (.error (not_found_error h) : HostResult)))
      ++ (known_hosts m ns).map (fun h => (h, op h))).map Prod.fst) =
      unknown_hosts m ns ++ known_hosts m ns := by
    simp only [List.map_append, List.map_map]
    rw [show (Prod.fst ∘ fun h => (h,
      (Except.error (not_found_error h) : HostResult))) = id from rfl]
    rw [show (Prod.fst ∘ fun h => (h, op h)) = id from rfl]
    rw [List.map_id, List.map_id]
  refine ⟨?_, ?_, ?_, ?_, ?_⟩
  · simp [List.length_append, unknown_known_length]
  · rw [hkeys]
    exact (hnd.filter _).append (hnd.filter _)
      (fun a ha hb => known_not_unknown m ns a hb ha)
  · intro h hs hf
    simp only [List.mem_filter] at hs
    simp only [List.mem_append, List.mem_filter] at hf
    rcases hf with hf | hf
    · exact known_not_unknown m ns h hs.1 hf
    · rw [hs.2] at hf
      simp at hf
  · intro h
    rw [hkeys]
    constructor
    · intro hh
      rcases hh with hh | hh
      · exact List.mem_append_right _ (List.mem_of_mem_filter hh)
      · rcases List.mem_append.mp hh with hh | hh
        · exact List.mem_append_left _ hh
        · exact List.mem_append_right _ (List.mem_of_mem_filter hh)
    · intro hh
      rcases List.mem_append.mp hh with hh | hh
      · exact Or.inr (List.mem_append_left _ hh)
      · cases hf : hostResultOk (op h)
        · refine Or.inr (List.mem_append_right _ ?_)
          rw [List.mem_filter]
          exact ⟨hh, by rw [hf]; rfl⟩
        · refine Or.inl ?_
          rw [List.mem_filter]
          exact ⟨hh, hf⟩
  · intro h hns hnone
    have hu : h ∈ unknown_hosts m ns := by
      rw [unknown_hosts, List.mem_filter]
      exact ⟨hns, by rw [hnone]; rfl⟩
    rw [alookup_append]
    rw [alookup_map_pair_of_mem (unknown_hosts m ns) _ h hu]

/-- C5 witness: closure at a concrete batch with one known host "a" and
one unknown host "x". -/
theorem batch_closure_witness :
    (["a", "x"] : List String).Nodup ∧
    ((execute_concurrent_operation cM5 ["a", "x"] cOp5).results.length =
        (["a", "x"] : List String).length ∧
     ((execute_concurrent_operation cM5 ["a", "x"] cOp5).results.map
        Prod.fst).Nodup ∧
     (∀ h, h ∈ (execute_concurrent_operation cM5 ["a", "x"] cOp5).successful →
       h ∉ (execute_concurrent_operation cM5 ["a", "x"] cOp5).failed) ∧
     (∀ h, (h ∈ (execute_concurrent_operation cM5 ["a", "x"] cOp5).successful ∨
         h ∈ (execute_concurrent_operation cM5 ["a", "x"] cOp5).failed) ↔
       h ∈ (execute_concurrent_operation cM5 ["a", "x"] cOp5).results.map
         Prod.fst) ∧
     (∀ h, h ∈ (["a", "x"] : List String) → alookup cM5.hosts h = none →
       alookup (execute_concurrent_operation cM5 ["a", "x"] cOp5).results h =
         some (.error (not_found_error h)))) :=
  ⟨by decide, batch_closure cM5 ["a", "x"] cOp5 (by decide)⟩

/-! ## Template deployment lemmas -/

theorem template_backup_ne_base (dest bts : String) :
    dest ++ "." ++ bts ++ ".backup" ≠ dest := by
  rw [show dest ++ "." ++ bts ++ ".backup"
      = dest ++ ("." ++ (bts ++ ".backup")) by
    rw [String.append_assoc, String.append_assoc]]
  apply string_append_ne_base
  rw [String.length_append, String.length_append]
  have h1 : ".".length = 1 := by decide
  omega

/-- The changed branch writes the rendered text at the destination
whenever it returns a result at all. -/
theorem deploy_changed_dest {V : Type} (fs : RemoteFs)
    (opts : TemplateOptions V) (rendered ts : String)
    (runValidate : String → CommandResult) (diff : Option String)
    (preTrace : List RAction)
    (hok : ∃ r, (deploy_template_changed fs opts rendered ts runValidate
      diff preTrace).result = .ok r) :
    fsLookup (deploy_template_changed fs opts rendered ts runValidate diff
      preTrace).fs opts.dest = some rendered := by
  obtain ⟨r, hr⟩ := hok
  unfold deploy_template_changed at hr ⊢
  cases hv : opts.validate with
  | none => exact fsLookup_fsWrite_self _ _ _
  | some v =>
      rw [hv] at hr
      dsimp only at hr ⊢
      by_cases he :
          (runValidate (v.replace "%s" (template_temp_path ts))).exit_code ≠ 0
      · rw [if_pos he] at hr
        simp at hr
      · rw [if_neg he]
        exact fsLookup_fsWrite_self _ _ _

/-- The changed branch with a failing validator: ValidationError carrying
the validator's stderr, destination entry untouched, staging file gone. -/
theorem deploy_changed_validate_fail {V : Type} (fs : RemoteFs)
    (opts : TemplateOptions V) (rendered ts : String)
    (runValidate : String → CommandResult) (diff : Option String)
    (preTrace : List RAction) (v : String)
    (hv : opts.validate = some v)
    (hexit :
      (runValidate (v.replace "%s" (template_temp_path ts))).exit_code ≠ 0)
    (hne : template_temp_path ts ≠ opts.dest) :
    (deploy_template_changed fs opts rendered ts runValidate diff
      preTrace).result =
      .error (.ValidationError ("Template validation failed: "
        ++ (runValidate (v.replace "%s" (template_temp_path ts))).stderr)) ∧
    fsLookup (deploy_template_changed fs opts rendered ts runValidate diff
      preTrace).fs opts.dest = fsLookup fs opts.dest ∧
    fsLookup (deploy_template_changed fs opts rendered ts runValidate diff
      preTrace).fs (template_temp_path ts) = none := by
  unfold deploy_template_changed
  rw [hv]
  dsimp only
  rw [if_pos hexit]
  refine ⟨rfl, ?_, fsLookup_fsRemove_self _ _⟩
  rw [fsLookup_fsRemove_ne _ _ _ hne.symm,
    fsLookup_fsWrite_ne _ _ _ _ hne.symm]

/-- C7 counterexample: the claim says carriage returns in the rendered
output are stripped before deployment.  Deploying a directive-free
template whose text contains a CR-LF line ending, with no variables at
all, succeeds and leaves the 0x0D byte in the destination content:
deploy_template never strips carriage returns. -/
theorem template_cr_counterexample :
    (deploy_template tera_plain [] "server_name example;\r\n" cOpts7 "9"
      "B" cCmdOk).result =
      .ok ⟨true, true, "Template deployed to /etc/app.conf", none⟩ ∧
    fsLookup (deploy_template tera_plain [] "server_name example;\r\n"
      cOpts7 "9" "B" cCmdOk).fs "/etc/app.conf" =
      some "server_name example;\r\n" ∧
    ("server_name example;\r\n".data.contains '\r') = true ∧
    cOpts7.vars = [] := by
  decide

/-- C7 amended: TemplateDeploy writes the rendered output verbatim: after
any deploy_template call that returns a result, the destination content
equals the Tera-rendered template exactly, carriage returns included —
the engine does not strip 0x0D bytes (only the shell-script task strips
CR from script bodies). -/
theorem deploy_template_writes_rendered {V : Type}
    (tera : String → List (String × V) → Except String String)
    (fs : RemoteFs) (templateContent : String) (opts : TemplateOptions V)
    (ts bts : String) (runValidate : String → CommandResult)
    (rendered : String)
    (hr : tera templateContent opts.vars = .ok rendered)
    (hok : ∃ r, (deploy_template tera fs templateContent opts ts bts
      runValidate).result = .ok r) :
    fsLookup (deploy_template tera fs templateContent opts ts bts
      runValidate).fs opts.dest = some rendered := by
  unfold deploy_template at hok ⊢
  rw [hr] at hok ⊢
  dsimp only at hok ⊢
  cases hl : fsLookup fs opts.dest with
  | none =>
      rw [hl] at hok
      exact deploy_changed_dest fs opts rendered ts runValidate none _ hok
  | some rc =>
      rw [hl] at hok
      dsimp only at hok ⊢
      by_cases hcc : rc ≠ rendered
      · rw [if_pos hcc] at hok ⊢
        split_ifs at hok ⊢ <;>
          exact deploy_changed_dest _ opts rendered ts runValidate _ _ hok
      · rw [if_neg hcc]
        push_neg at hcc
        rw [hl, hcc]

/-- C7 amended witness: a concrete deploy through the identity rendering
of a directive-free template lands the rendered text, CR included, at the
destination. -/
theorem deploy_template_writes_rendered_witness :
    (tera_plain "listen 80;\r\n" cOpts7.vars = .ok "listen 80;\r\n" ∧
     ∃ r, (deploy_template tera_plain [] "listen 80;\r\n" cOpts7 "9" "B"
       cCmdOk).result = .ok r) ∧
    fsLookup (deploy_template tera_plain [] "listen 80;\r\n" cOpts7 "9" "B"
      cCmdOk).fs cOpts7.dest = some "listen 80;\r\n" :=
  ⟨⟨rfl, ⟨⟨true, true, "Template deployed to /etc/app.conf", none⟩,
      by decide⟩⟩,
    deploy_template_writes_rendered tera_plain [] "listen 80;\r\n" cOpts7
      "9" "B" cCmdOk "listen 80;\r\n" rfl
      ⟨⟨true, true, "Template deployed to /etc/app.conf", none⟩, by decide⟩⟩

/-- C8: for every TemplateDeploy call with a validate command, when the
validate command (with the percent-s placeholder replaced by the staging
path) exits non-zero, the operation returns ValidationError, the remote
staging file is removed, and the destination retains its pre-operation
content. -/
theorem deploy_template_validate_failure {V : Type}
    (tera : String → List (String × V) → Except String String)
    (fs : RemoteFs) (templateContent : String) (opts : TemplateOptions V)
    (ts bts : String) (runValidate : String → CommandResult)
    (rendered v : String)
    (hr : tera templateContent opts.vars = .ok rendered)
    (hv : opts.validate = some v)
    (hch : fsLookup fs opts.dest ≠ some rendered)
    (hexit :
      (runValidate (v.replace "%s" (template_temp_path ts))).exit_code ≠ 0)
    (hne : template_temp_path ts ≠ opts.dest) :
    (deploy_template tera fs templateContent opts ts bts
      runValidate).result =
      .error (.ValidationError ("Template validation failed: "
        ++ (runValidate (v.replace "%s" (template_temp_path ts))).stderr)) ∧
    fsLookup (deploy_template tera fs templateContent opts ts bts
      runValidate).fs opts.dest = fsLookup fs opts.dest ∧
    fsLookup (deploy_template tera fs templateContent opts ts bts
      runValidate).fs (template_temp_path ts) = none := by
  unfold deploy_template
  rw [hr]
  dsimp only
  cases hl : fsLookup fs opts.dest with
  | none =>
      have hmain := deploy_changed_validate_fail fs opts rendered ts
        runValidate none [RAction.testF opts.dest] v hv hexit hne
      rw [hl] at hmain
      exact hmain
  | some rc =>
      have hcc : rc ≠ rendered := by
        intro hh
        rw [hl, hh] at hch
        exact hch rfl
      dsimp only
      rw [if_pos hcc]
      by_cases hb : opts.backup = true
      · rw [if_pos hb, if_pos hb]
        have hmain := deploy_changed_validate_fail
          (fsWrite fs (opts.dest ++ "." ++ bts ++ ".backup") rc) opts
          rendered ts runValidate (some (generate_diff rc rendered))
          ([RAction.testF opts.dest, RAction.catRead opts.dest]
            ++ [RAction.backupCp opts.dest
              (opts.dest ++ "." ++ bts ++ ".backup")])
          v hv hexit hne
        refine ⟨hmain.1, ?_, hmain.2.2⟩
        rw [hmain.2.1,
          fsLookup_fsWrite_ne _ _ _ _
            (template_backup_ne_base opts.dest bts).symm, hl]
      · rw [if_neg hb, if_neg hb]
        have hmain := deploy_changed_validate_fail fs opts rendered ts
          runValidate (some (generate_diff rc rendered))
          ([RAction.testF opts.dest, RAction.catRead opts.dest] ++ [])
          v hv hexit hne
        rw [hl] at hmain
        exact hmain

/-- C8 witness: an nginx-style template whose validator exits 1; the
destination keeps its old content and the staging file is gone. -/
theorem deploy_template_validate_failure_witness :
    (tera_plain "new config" cOpts8.vars = .ok "new config" ∧
     cOpts8.validate = some "nginx -t -c %s" ∧
     fsLookup cFs8 cOpts8.dest ≠ some "new config" ∧
     (cValFail (("nginx -t -c %s").replace "%s"
       (template_temp_path "42"))).exit_code ≠ 0 ∧
     template_temp_path "42" ≠ cOpts8.dest) ∧
    ((deploy_template tera_plain cFs8 "new config" cOpts8 "42" "B"
      cValFail).result =
      .error (.ValidationError ("Template validation failed: "
        ++ (cValFail (("nginx -t -c %s").replace "%s"
          (template_temp_path "42"))).stderr)) ∧
    fsLookup (deploy_template tera_plain cFs8 "new config" cOpts8 "42" "B"
      cValFail).fs cOpts8.dest = fsLookup cFs8 cOpts8.dest ∧
    fsLookup (deploy_template tera_plain cFs8 "new config" cOpts8 "42" "B"
      cValFail).fs (template_temp_path "42") = none) :=
  ⟨⟨rfl, rfl, by decide, by decide, by decide⟩,
    deploy_template_validate_failure tera_plain cFs8 "new config" cOpts8
      "42" "B" cValFail "new config" "nginx -t -c %s" rfl rfl (by decide)
      (by decide) (by decide)⟩

/-! ## Playbook execution lemmas -/

theorem success_rate_pos_iff (br : BatchResult) :
    br.success_rate_pos = true ↔ 0 < br.success_rate := by
  unfold BatchResult.success_rate_pos BatchResult.success_rate
  by_cases he : br.results.isEmpty
  · simp [he]
  · rw [if_neg he]
    simp only [he, Bool.not_false, Bool.true_and, decide_eq_true_eq]
    have hrpos : (0 : Rat) < (br.results.length : Rat) := by
      have : br.results ≠ [] := by
        intro hl
        rw [hl] at he
        exact he rfl
      have hlen : 0 < br.results.length := List.length_pos.mpr this
      exact_mod_cast hlen
    constructor
    · intro h
      apply div_pos _ hrpos
      exact_mod_cast h
    · intro h
      by_contra h0
      push_neg at h0
      interval_cases hs : br.successful.length
      · norm_num at h

theorem mem_replaceEntry {α : Type} (l : List (String × α)) (k : String)
    (v : α) (p : String × α) (h : p ∈ replaceEntry l k v) :
    p ∈ l ∨ p = (k, v) := by
  induction l with
  | nil => simp [replaceEntry] at h
  | cons e t ih =>
      obtain ⟨a, b⟩ := e
      by_cases he : a = k
      · rw [replaceEntry, if_pos he] at h
        rcases List.mem_cons.mp h with hh | hh
        · exact Or.inr hh
        · rcases ih hh with hh' | hh'
          · exact Or.inl (List.mem_cons_of_mem _ hh')
          · exact Or.inr hh'
      · rw [replaceEntry, if_neg he] at h
        rcases List.mem_cons.mp h with hh | hh
        · exact Or.inl (hh ▸ List.mem_cons_self _ _)
        · rcases ih hh with hh' | hh'
          · exact Or.inl (List.mem_cons_of_mem _ hh')
          · exact Or.inr hh'

theorem mem_amInsert {α : Type} (l : List (String × α)) (k : String)
    (v : α) (p : String × α) (h : p ∈ amInsert l k v) :
    p ∈ l ∨ p = (k, v) := by
  unfold amInsert at h
  split_ifs at h
  · exact mem_replaceEntry l k v p h
  · rcases List.mem_append.mp h with hh | hh
    · exact Or.inl hh
    · exact Or.inr (List.mem_singleton.mp hh)

theorem mem_results_foldl_add (hs : List String) (f : String → HostResult)
    (br : BatchResult) (p : String × HostResult)
    (h : p ∈ (hs.foldl (fun b x => b.add_result x (f x)) br).results) :
    p ∈ br.results ∨ ∃ x ∈ hs, p = (x, f x) := by
  induction hs generalizing br with
  | nil => exact Or.inl h
  | cons x t ih =>
      rw [List.foldl_cons] at h
      rcases ih (br.add_result x (f x)) h with hh | hh
      · rcases mem_amInsert br.results x (f x) p hh with hh' | hh'
        · exact Or.inl hh'
        · exact Or.inr ⟨x, List.mem_cons_self _ _, hh'⟩
      · obtain ⟨y, hy, hp⟩ := hh
        exact Or.inr ⟨y, List.mem_cons_of_mem _ hy, hp⟩

theorem mem_eco_results (m : AnsibleManager) (ns : List String)
    (op : String → HostResult) (p : String × HostResult)
    (h : p ∈ (execute_concurrent_operation m ns op).results) : p.1 ∈ ns := by
  rw [eco_eq] at h
  rcases mem_results_foldl_add _ _ _ _ h with hh | hh
  · rcases mem_results_foldl_add _ _ _ _ hh with hh' | hh'
    · simp [BatchResult.new] at hh'
    · obtain ⟨x, hx, hp⟩ := hh'
      rw [hp]
      exact List.mem_of_mem_filter hx
  · obtain ⟨x, hx, hp⟩ := hh
    rw [hp]
    exact List.mem_of_mem_filter hx

theorem execute_task_skip (m : AnsibleManager) (oracle : TaskOracle)
    (i : Nat) (t : Task) (fh : List String) (br : BatchResult)
    (h v : _) (hfh : h ∈ fh)
    (hok : execute_task m oracle i t fh = .ok br)
    (hmem : (h, v) ∈ br.results) : v = .error skip_error := by
  unfold execute_task at hok
  set all_hosts := (match t.hosts with
    | some hs => hs
    | none => m.list_hosts) with hall
  by_cases hac : (all_hosts.filter (fun x => !(fh.contains x))).isEmpty
  · rw [if_pos hac] at hok
    cases hok
    rcases mem_results_foldl_add _ _ _ _ hmem with hh | hh
    · simp [BatchResult.new] at hh
    · obtain ⟨x, _, hp⟩ := hh
      exact congrArg Prod.snd hp
  · rw [if_neg hac] at hok
    have hnotactive : h ∉ all_hosts.filter (fun x => !(fh.contains x)) := by
      intro hmemf
      have hthis := (List.mem_filter.mp hmemf).2
      simp only [Bool.not_eq_true'] at hthis
      have hcontains : fh.contains h = true := by
        simpa using hfh
      rw [hthis] at hcontains
      exact Bool.false_ne_true hcontains
    have hbr : ∃ ph, br = execute_concurrent_operation m
        (all_hosts.filter (fun x => !(fh.contains x))) (oracle i ph) := by
      cases ht : t.task_type with
      | Shell s =>
          rw [ht] at hok
          dsimp only at hok
          by_cases hrate : (execute_concurrent_operation m
              (all_hosts.filter (fun x => !(fh.contains x)))
              (oracle i 1)).success_rate_pos = true
          · rw [if_pos hrate] at hok
            cases hok
            exact ⟨2, rfl⟩
          · rw [if_neg hrate] at hok
            simp at hok
      | Command c => rw [ht] at hok; cases hok; exact ⟨0, rfl⟩
      | CopyFile a b c => rw [ht] at hok; cases hok; exact ⟨0, rfl⟩
      | GetSystemInfo => rw [ht] at hok; cases hok; exact ⟨0, rfl⟩
      | Ping => rw [ht] at hok; cases hok; exact ⟨0, rfl⟩
      | User => rw [ht] at hok; cases hok; exact ⟨0, rfl⟩
      | Template => rw [ht] at hok; cases hok; exact ⟨0, rfl⟩
    obtain ⟨ph, hbr⟩ := hbr
    rw [hbr] at hmem
    exact absurd (mem_eco_results m _ _ _ hmem) hnotactive

theorem subset_insert_failed (hs fh : List String) :
    fh ⊆ insert_failed fh hs := by
  induction hs generalizing fh with
  | nil => exact fun a ha => ha
  | cons x t ih =>
      intro a ha
      unfold insert_failed
      rw [List.foldl_cons]
      by_cases hx : fh.contains x
      · rw [if_pos hx]
        exact ih fh ha
      · rw [if_neg hx]
        exact ih (fh ++ [x]) (List.mem_append_left _ ha)

/-- One-step reduction of the playbook loop from a running state. -/
theorem pb_step_running (m : AnsibleManager) (oracle : TaskOracle)
    (acc : List (String × BatchResult)) (ok : Bool) (fh : List String)
    (idx : Nat) (t : Task) :
    pb_step m oracle (.running acc ok fh idx) t =
      match execute_task m oracle idx t fh with
      | .ok br =>
          if (!br.success_rate_pos && !t.ignore_errors) = true then
            .halted (acc ++ [(t.name, br)])
              (if t.ignore_errors then fh else insert_failed fh br.failed)
          else
            .running (acc ++ [(t.name, br)]) ok
              (if t.ignore_errors then fh else insert_failed fh br.failed)
              (idx + 1)
      | .error e =>
          if t.ignore_errors then .running acc false fh (idx + 1)
          else .failed e := rfl

theorem pb_foldl_halted (m : AnsibleManager) (oracle : TaskOracle)
    (ts : List Task) (acc : List (String × BatchResult))
    (fh : List String) :
    ts.foldl (pb_step m oracle) (.halted acc fh) = .halted acc fh := by
  induction ts with
  | nil => rfl
  | cons t ts ih => rw [List.foldl_cons]; exact ih

theorem pb_foldl_failed (m : AnsibleManager) (oracle : TaskOracle)
    (ts : List Task) (e : AnsibleError) :
    ts.foldl (pb_step m oracle) (.failed e) = .failed e := by
  induction ts with
  | nil => rfl
  | cons t ts ih => rw [List.foldl_cons]; exact ih

theorem pb_acc_extends (m : AnsibleManager) (oracle : TaskOracle) :
    ∀ (ts : List Task) (acc : List (String × BatchResult)) (ok : Bool)
      (fh : List String) (idx : Nat),
    (∃ rest, RunSt.outAcc
        (ts.foldl (pb_step m oracle) (.running acc ok fh idx)) =
      acc ++ rest) ∨
    (∃ e, ts.foldl (pb_step m oracle) (.running acc ok fh idx) =
      .failed e) := by
  intro ts
  induction ts with
  | nil => intro acc ok fh idx; exact Or.inl ⟨[], by simp [RunSt.outAcc]⟩
  | cons t ts ih =>
      intro acc ok fh idx
      rw [List.foldl_cons, pb_step_running]
      cases he : execute_task m oracle idx t fh with
      | ok br =>
          dsimp only
          by_cases hc : (!br.success_rate_pos
              && !t.ignore_errors) = true
          · rw [if_pos hc, pb_foldl_halted]
            exact Or.inl ⟨[(t.name, br)], rfl⟩
          · rw [if_neg hc]
            rcases ih (acc ++ [(t.name, br)]) ok
              (if t.ignore_errors then fh else insert_failed fh br.failed)
              (idx + 1) with ⟨rest, hrest⟩ | ⟨e, he'⟩
            · exact Or.inl ⟨[(t.name, br)] ++ rest,
                by rw [hrest, List.append_assoc]⟩
            · exact Or.inr ⟨e, he'⟩
      | error e =>
          dsimp only
          by_cases hig : t.ignore_errors = true
          · rw [if_pos hig]
            exact ih acc false fh (idx + 1)
          · rw [if_neg hig, pb_foldl_failed]
            exact Or.inr ⟨e, rfl⟩

theorem pb_skip_forward_aux (m : AnsibleManager) (oracle : TaskOracle) :
    ∀ (ts : List Task) (acc : List (String × BatchResult)) (ok : Bool)
      (fh : List String) (idx : Nat) (h : String), h ∈ fh →
    ∀ p ∈ (RunSt.outAcc
        (ts.foldl (pb_step m oracle) (.running acc ok fh idx))).drop
          acc.length,
      ∀ v, (h, v) ∈ p.2.results → v = .error skip_error := by
  intro ts
  induction ts with
  | nil =>
      intro acc ok fh idx h hh p hp v hv
      simp [RunSt.outAcc, List.drop_length] at hp
  | cons t ts ih =>
      intro acc ok fh idx h hh p hp v hv
      rw [List.foldl_cons, pb_step_running] at hp
      cases he : execute_task m oracle idx t fh with
      | ok br =>
          rw [he] at hp
          dsimp only at hp
          by_cases hc : (!br.success_rate_pos
              && !t.ignore_errors) = true
          · rw [if_pos hc, pb_foldl_halted] at hp
            have : p ∈ [(t.name, br)] := by
              have hd : (acc ++ [(t.name, br)]).drop acc.length
                  = [(t.name, br)] := List.drop_left acc [(t.name, br)]
              rw [RunSt.outAcc] at hp
              rw [hd] at hp
              exact hp
            rw [List.mem_singleton] at this
            rw [this] at hv
            exact execute_task_skip m oracle idx t fh br h v hh he hv
          · rw [if_neg hc] at hp
            have hsub : h ∈ (if t.ignore_errors then fh
                else insert_failed fh br.failed) := by
              split_ifs
              · exact hh
              · exact subset_insert_failed br.failed fh hh
            rcases pb_acc_extends m oracle ts (acc ++ [(t.name, br)]) ok
              (if t.ignore_errors then fh else insert_failed fh br.failed)
              (idx + 1) with ⟨rest, hrest⟩ | ⟨e, he'⟩
            · rw [hrest, List.append_assoc] at hp
              rw [List.drop_left acc ([(t.name, br)] ++ rest)] at hp
              rcases List.mem_append.mp hp with hp' | hp'
              · rw [List.mem_singleton] at hp'
                rw [hp'] at hv
                exact execute_task_skip m oracle idx t fh br h v hh he hv
              · have hp'' : p ∈ (RunSt.outAcc
                    (ts.foldl (pb_step m oracle)
                      (.running (acc ++ [(t.name, br)]) ok
                        (if t.ignore_errors then fh
                          else insert_failed fh br.failed) (idx + 1)))).drop
                    (acc ++ [(t.name, br)]).length := by
                  rw [hrest, List.drop_left]
                  exact hp'
                exact ih (acc ++ [(t.name, br)]) ok _ (idx + 1) h hsub
                  p hp'' v hv
            · rw [he'] at hp
              simp [RunSt.outAcc] at hp
      | error e =>
          rw [he] at hp
          dsimp only at hp
          by_cases hig : t.ignore_errors = true
          · rw [if_pos hig] at hp
            exact ih acc false fh (idx + 1) h hh p hp v hv
          · rw [if_neg hig, pb_foldl_failed] at hp
            simp [RunSt.outAcc] at hp

/-- C3 counterexample: host b fails the first task, whose ignore_errors
flag is false, and thus enters failed_hosts; yet b appears in the second
task's result map (as a synthetic skip entry, because the second task's
whole target set had previously failed) — contradicting the claim that a
failed host does not appear in any subsequent task's result map. -/
theorem playbook_skip_counterexample :
    execute_playbook cM34 cOracle34 cPb3 = .ok cPr34 ∧
    cPb3.tasks.map (fun t => t.ignore_errors) = [false, false] ∧
    "b" ∈ cBr0.failed ∧
    cPr34.task_results.get? 0 = some ("t0", cBr0) ∧
    cPr34.task_results.get? 1 = some ("t1", cBr1) ∧
    ("b", .error skip_error) ∈ cBr1.results := by
  decide

/-- C3 amended: once a host enters failed_hosts (the set held by any
reachable prefix state of the run), it never appears in a later task's
result map as a real execution: any entry recorded for it afterwards is
the synthetic Err(SshConnectionError "Host skipped due to previous
failure"), which the engine emits exactly when a task's whole active set
is empty; when the task still has active hosts, the failed host is
omitted from the result map altogether. -/
theorem playbook_skip_forward (m : AnsibleManager) (oracle : TaskOracle)
    (pb : Playbook) (pr : PlaybookResult) (j : Nat)
    (acc : List (String × BatchResult)) (ok : Bool) (fh : List String)
    (idx : Nat) (h : String)
    (hrun : execute_playbook m oracle pb = .ok pr)
    (hpre : prefix_run m oracle pb j = .running acc ok fh idx)
    (hh : h ∈ fh) :
    ∀ p ∈ pr.task_results.drop acc.length, ∀ v, (h, v) ∈ p.2.results →
      v = .error skip_error := by
  have hacc : pr.task_results = RunSt.outAcc
      (pb.tasks.foldl (pb_step m oracle) (.running [] true [] 0)) := by
    unfold execute_playbook at hrun
    cases hf : pb.tasks.foldl (pb_step m oracle) (.running [] true [] 0) with
    | running a o f i => rw [hf] at hrun; cases hrun; rfl
    | halted a f => rw [hf] at hrun; cases hrun; rfl
    | failed e => rw [hf] at hrun; simp at hrun
  have hsplit : pb.tasks.foldl (pb_step m oracle) (.running [] true [] 0) =
      (pb.tasks.drop j).foldl (pb_step m oracle)
        (.running acc ok fh idx) := by
    conv_lhs => rw [← List.take_append_drop j pb.tasks]
    rw [List.foldl_append]
    unfold prefix_run at hpre
    rw [hpre]
  intro p hp v hv
  refine pb_skip_forward_aux m oracle (pb.tasks.drop j) acc ok fh idx h hh
    p ?_ v hv
  rw [← hsplit, ← hacc]
  exact hp

/-- C3 amended witness: in the concrete run of cPb3, after the first task
(whose state holds failed_hosts = b), every later entry about b is the
synthetic skip error. -/
theorem playbook_skip_forward_witness :
    (execute_playbook cM34 cOracle34 cPb3 = .ok cPr34 ∧
     prefix_run cM34 cOracle34 cPb3 1 =
       .running [("t0", cBr0)] true ["b"] 1 ∧
     "b" ∈ (["b"] : List String)) ∧
    (∀ p ∈ cPr34.task_results.drop
        ([("t0", cBr0)] : List (String × BatchResult)).length,
      ∀ v, ("b", v) ∈ p.2.results → v = .error skip_error) :=
  ⟨⟨by decide, by decide, by decide⟩,
    playbook_skip_forward cM34 cOracle34 cPb3 cPr34 1 [("t0", cBr0)] true
      ["b"] 1 "b" (by decide) (by decide) (by decide)⟩

theorem pb_foldl_flag_false (m : AnsibleManager) (oracle : TaskOracle) :
    ∀ (ts : List Task) (acc : List (String × BatchResult))
      (fh : List String) (idx : Nat),
    RunSt.outFlag (ts.foldl (pb_step m oracle) (.running acc false fh idx))
      ≠ some true := by
  intro ts
  induction ts with
  | nil =>
      intro acc fh idx
      simp [RunSt.outFlag]
  | cons t ts ih =>
      intro acc fh idx
      rw [List.foldl_cons, pb_step_running]
      cases he : execute_task m oracle idx t fh with
      | ok br =>
          dsimp only
          by_cases hc : (!br.success_rate_pos && !t.ignore_errors) = true
          · rw [if_pos hc, pb_foldl_halted]
            simp [RunSt.outFlag]
          · rw [if_neg hc]
            exact ih _ _ _
      | error e =>
          dsimp only
          by_cases hig : t.ignore_errors = true
          · rw [if_pos hig]
            exact ih _ _ _
          · rw [if_neg hig, pb_foldl_failed]
            simp [RunSt.outFlag]

theorem pb_ok_iff (m : AnsibleManager) (oracle : TaskOracle) :
    ∀ (ts : List Task) (acc : List (String × BatchResult))
      (fh : List String) (idx : Nat),
    (RunSt.outFlag (ts.foldl (pb_step m oracle) (.running acc true fh idx))
        = some true ↔
      (∀ (j : Nat) (hj : j < ts.length)
          (acc' : List (String × BatchResult)) (ok' : Bool)
          (fh' : List String) (idx' : Nat),
        (ts.take j).foldl (pb_step m oracle) (.running acc true fh idx) =
          .running acc' ok' fh' idx' →
        step_ok m oracle (ts.get ⟨j, hj⟩) fh' idx')) := by
  intro ts
  induction ts with
  | nil =>
      intro acc fh idx
      constructor
      · intro _ j hj
        exact absurd hj (Nat.not_lt_zero j)
      · intro _
        rfl
  | cons t ts ih =>
      intro acc fh idx
      cases he : execute_task m oracle idx t fh with
      | ok br =>
          by_cases hc : (!br.success_rate_pos && !t.ignore_errors) = true
          · have hL : RunSt.outFlag ((t :: ts).foldl (pb_step m oracle)
                (.running acc true fh idx)) = some false := by
              rw [List.foldl_cons, pb_step_running, he]
              dsimp only
              rw [if_pos hc, pb_foldl_halted]
              rfl
            have hcomp := hc
            simp only [Bool.and_eq_true, Bool.not_eq_true'] at hcomp
            have hstep_not : ¬ step_ok m oracle t fh idx := by
              rintro ⟨br', hbr', hdisj⟩
              rw [he] at hbr'
              cases hbr'
              rcases hdisj with hig | hrate
              · rw [hig] at hcomp
                exact Bool.noConfusion hcomp.2
              · rw [← success_rate_pos_iff] at hrate
                rw [hcomp.1] at hrate
                exact Bool.false_ne_true hrate
            apply iff_of_false
            · rw [hL]
              simp
            · intro hR
              exact hstep_not (hR 0 (by simp) acc true fh idx
                (by rw [List.take_zero, List.foldl_nil]))
          · have hfold : (t :: ts).foldl (pb_step m oracle)
                (.running acc true fh idx) =
                ts.foldl (pb_step m oracle)
                  (.running (acc ++ [(t.name, br)]) true
                    (if t.ignore_errors then fh
                      else insert_failed fh br.failed) (idx + 1)) := by
              rw [List.foldl_cons, pb_step_running, he]
              dsimp only
              rw [if_neg hc]
            have hstep : step_ok m oracle t fh idx := by
              refine ⟨br, he, ?_⟩
              by_cases hig : t.ignore_errors = true
              · exact Or.inl hig
              · have hig' : t.ignore_errors = false := by
                  cases hval : t.ignore_errors
                  · rfl
                  · exact absurd hval hig
                have hpos : br.success_rate_pos = true := by
                  cases hval : br.success_rate_pos
                  · exact absurd (by rw [hval, hig']; rfl) hc
                  · rfl
                exact Or.inr ((success_rate_pos_iff br).mp hpos)
            rw [hfold, ih (acc ++ [(t.name, br)]) _ (idx + 1)]
            constructor
            · intro hR j hj acc' ok' fh' idx' hpre
              cases j with
              | zero =>
                  rw [List.take_zero, List.foldl_nil] at hpre
                  cases hpre
                  exact hstep
              | succ j' =>
                  rw [List.take_succ_cons, List.foldl_cons,
                    pb_step_running, he] at hpre
                  dsimp only at hpre
                  rw [if_neg hc] at hpre
                  exact hR j'
                    (by simp only [List.length_cons] at hj; omega)
                    acc' ok' fh' idx' hpre
            · intro hR j hj acc' ok' fh' idx' hpre
              refine hR (j + 1)
                (by simp only [List.length_cons]; omega)
                acc' ok' fh' idx' ?_
              rw [List.take_succ_cons, List.foldl_cons, pb_step_running, he]
              dsimp only
              rw [if_neg hc]
              exact hpre
      | error e =>
          have hstep_not : ¬ step_ok m oracle t fh idx := by
            rintro ⟨br', hbr', _⟩
            rw [he] at hbr'
            simp at hbr'
          by_cases hig : t.ignore_errors = true
          · apply iff_of_false
            · rw [List.foldl_cons, pb_step_running, he]
              dsimp only
              rw [if_pos hig]
              exact pb_foldl_flag_false m oracle ts acc fh (idx + 1)
            · intro hR
              exact hstep_not (hR 0 (by simp) acc true fh idx
                (by rw [List.take_zero, List.foldl_nil]))
          · apply iff_of_false
            · rw [List.foldl_cons, pb_step_running, he]
              dsimp only
              rw [if_neg hig, pb_foldl_failed]
              simp [RunSt.outFlag]
            · intro hR
              exact hstep_not (hR 0 (by simp) acc true fh idx
                (by rw [List.take_zero, List.foldl_nil]))

/-- C4 counterexample: the only task of cPb4 has ignore_errors = true and
aborts wholesale (its shell-script upload reaches no host), yet
overall_success is false — so a failing task with ignore_errors = true
CAN make overall_success false, and the claimed iff fails (there is no
non-ignored task at all). -/
theorem playbook_overall_counterexample :
    execute_playbook cM4 cOracle4 cPb4 = .ok cPr4 ∧
    cPr4.overall_success = false ∧
    (∀ t ∈ cPb4.tasks, t.ignore_errors = true) := by
  decide

/-- C4 amended: overall_success is true iff every step of the run was
non-falsifying — every reachable prefix state saw its task produce a
result with either ignore_errors set or at least one successful host; in
particular a wholesale-aborted ignored task (execute_task returning Err)
falsifies overall_success.  Moreover, when a task with ignore_errors =
false produces a result with success rate zero, the playbook stops: the
final result records exactly the tasks up to and including it, and
overall_success is false. -/
theorem playbook_overall_success (m : AnsibleManager) (oracle : TaskOracle)
    (pb : Playbook) (pr : PlaybookResult)
    (hrun : execute_playbook m oracle pb = .ok pr) :
    (pr.overall_success = true ↔
      (∀ (j : Nat) (hj : j < pb.tasks.length)
          (acc' : List (String × BatchResult)) (ok' : Bool)
          (fh' : List String) (idx' : Nat),
        prefix_run m oracle pb j = .running acc' ok' fh' idx' →
        step_ok m oracle (pb.tasks.get ⟨j, hj⟩) fh' idx')) ∧
    (∀ (j : Nat) (hj : j < pb.tasks.length)
        (acc : List (String × BatchResult)) (ok : Bool)
        (fh : List String) (idx : Nat) (br : BatchResult),
      prefix_run m oracle pb j = .running acc ok fh idx →
      execute_task m oracle idx (pb.tasks.get ⟨j, hj⟩) fh = .ok br →
      (pb.tasks.get ⟨j, hj⟩).ignore_errors = false →
      ¬ (0 < br.success_rate) →
      pr.task_results = acc ++ [((pb.tasks.get ⟨j, hj⟩).name, br)] ∧
      pr.overall_success = false) := by
  have hflag : pr.overall_success = true ↔ RunSt.outFlag
      (pb.tasks.foldl (pb_step m oracle) (.running [] true [] 0)) =
        some true := by
    unfold execute_playbook at hrun
    cases hf : pb.tasks.foldl (pb_step m oracle) (.running [] true [] 0) with
    | running a o f i =>
        rw [hf] at hrun
        cases hrun
        simp [RunSt.outFlag]
    | halted a f =>
        rw [hf] at hrun
        cases hrun
        simp [RunSt.outFlag]
    | failed e =>
        rw [hf] at hrun
        simp at hrun
  constructor
  · rw [hflag]
    exact pb_ok_iff m oracle pb.tasks [] [] 0
  · intro j hj acc ok fh idx br hpre he hig hrate
    have hpos : br.success_rate_pos = false := by
      cases hval : br.success_rate_pos
      · rfl
      · exact absurd ((success_rate_pos_iff br).mp hval) hrate
    have hstep : pb_step m oracle (.running acc ok fh idx)
        (pb.tasks.get ⟨j, hj⟩) =
        .halted (acc ++ [((pb.tasks.get ⟨j, hj⟩).name, br)])
          (insert_failed fh br.failed) := by
      rw [pb_step_running, he]
      dsimp only
      rw [if_pos (by rw [hpos, hig]; rfl), hig]
      simp
    have hfull : pb.tasks.foldl (pb_step m oracle) (.running [] true [] 0) =
        .halted (acc ++ [((pb.tasks.get ⟨j, hj⟩).name, br)])
          (insert_failed fh br.failed) := by
      conv_lhs => rw [← List.take_append_drop j pb.tasks]
      rw [List.foldl_append]
      unfold prefix_run at hpre
      rw [hpre]
      rw [List.drop_eq_getElem_cons hj, List.foldl_cons]
      rw [show (pb.tasks[j] : Task) = pb.tasks.get ⟨j, hj⟩ from rfl]
      rw [hstep, pb_foldl_halted]
    unfold execute_playbook at hrun
    rw [hfull] at hrun
    cases hrun
    exact ⟨rfl, rfl⟩

/-- C4 amended witness: the characterisation applied to the concrete run
of cPb3 (overall_success false because the second task halts the run). -/
theorem playbook_overall_success_witness :
    (execute_playbook cM34 cOracle34 cPb3 = .ok cPr34) ∧
    ((cPr34.overall_success = true ↔
      (∀ (j : Nat) (hj : j < cPb3.tasks.length)
          (acc' : List (String × BatchResult)) (ok' : Bool)
          (fh' : List String) (idx' : Nat),
        prefix_run cM34 cOracle34 cPb3 j = .running acc' ok' fh' idx' →
        step_ok cM34 cOracle34 (cPb3.tasks.get ⟨j, hj⟩) fh' idx')) ∧
    (∀ (j : Nat) (hj : j < cPb3.tasks.length)
        (acc : List (String × BatchResult)) (ok : Bool)
        (fh : List String) (idx : Nat) (br : BatchResult),
      prefix_run cM34 cOracle34 cPb3 j = .running acc ok fh idx →
      execute_task cM34 cOracle34 idx (cPb3.tasks.get ⟨j, hj⟩) fh = .ok br →
      (cPb3.tasks.get ⟨j, hj⟩).ignore_errors = false →
      ¬ (0 < br.success_rate) →
      cPr34.task_results = acc ++ [((cPb3.tasks.get ⟨j, hj⟩).name, br)] ∧
      cPr34.overall_success = false)) :=
  ⟨by decide, playbook_overall_success cM34 cOracle34 cPb3 cPr34 (by decide)⟩

end RsAnsible
